import Mathlib

/-!
Verification of the NICKEL tool-orchestration and confirmation pipeline.

This file gives a shallow embedding of the core of the NICKEL backend
(`app/orchestrator.py`, `app/llm.py`, `app/chat.py`, `app/pending_actions.py`,
`app/actions.py` and the `/confirm` and `/cancel` routes of `app/main.py`)
and proves properties of that embedding.

Modelling conventions:
* Python JSON values are modelled by the inductive type `Json`; dictionaries
  are ordered association lists (insertion order), matching CPython dicts.
* Python floats that appear in the core (classifier confidences, thresholds)
  are modelled as rationals; every constant involved (0.45, 0.75, 0.8, 0.85)
  compares identically as a float and as a rational.
* Side effects (tool handler invocations, audit events, pending-action
  creation) are recorded in explicit effect traces; HTTP calls made by the
  model request pipeline are driven by an explicit oracle (a list of
  prescribed outcomes), and the LLM reply consumed by the chat planner is an
  explicit oracle argument (exactly how the repository's own tests stub
  `generate_response`).
* Calls that Python would end by raising are modelled by explicit error
  results (`HTTPException` payloads become `(status, code)` pairs; uncaught
  exceptions become a `crash` outcome).
-/

namespace Nickel

/-! ## JSON values (decoded Python objects) -/

inductive Json where
  | null
  | bool (b : Bool)
  | num (q : ℚ)
  | str (s : String)
  | arr (items : List Json)
  | obj (members : List (String × Json))
deriving Repr, Inhabited

/-- Association-list lookup for a decoded JSON object, mirroring how a
CPython dict resolves a key (first binding wins; dict keys are unique). -/
def jlookup (members : List (String × Json)) (key : String) : Option Json :=
  (members.find? (fun p => p.1 = key)).map (fun p => p.2)

/-- `members.get(key, default)` on a Python dict. -/
def jgetD (members : List (String × Json)) (key : String) (default : Json) : Json :=
  (jlookup members key).getD default

/-- Python truthiness of a decoded JSON value. -/
def jtruthy : Json → Bool
  | .null => false
  | .bool b => b
  | .num q => !(q == 0)
  | .str s => !(s == "")
  | .arr items => !items.isEmpty
  | .obj members => !members.isEmpty

/-- `str(x)` on a decoded JSON value.  Strings are returned verbatim and the
scalar singletons use CPython spellings; the textual form of containers and
of non-integral numbers is never inspected by any theorem below and is kept
schematic. -/
def pyStr : Json → String
  | .str s => s
  | .null => "None"
  | .bool true => "True"
  | .bool false => "False"
  | .num q => toString q
  | .arr _ => "[...]"
  | .obj _ => "[...]"

/-! ## A JSON text parser (`json.loads`)

Recursive-descent parser over the character list, with explicit fuel
(`length + 1` is always sufficient because every recursive step consumes at
least one character).  JSON whitespace is the four characters accepted by
CPython's strict parser.  The `NaN`/`Infinity` extensions of CPython are not
representable in `ℚ`; on those inputs the embedded parser fails where CPython
yields a float, and every consumer below (`decode_llm_json`,
`parse_tool_arguments`) treats the two outcomes identically (a non-object
value and a parse failure both end in the same `JSONDecodeError`). -/

def isJsonWs (c : Char) : Bool :=
  c = ' ' || c = '\t' || c = '\n' || c = '\r'

def digitVal (c : Char) : Nat := c.toNat - '0'.toNat

def digitsToNat (cs : List Char) : Nat :=
  cs.foldl (fun acc c => acc * 10 + digitVal c) 0

/-- Parse the body of a JSON string literal (after the opening quote),
accumulating characters until the closing quote; handles the escape
sequences of RFC 8259 (`\uXXXX` is decoded as a single code unit). -/
def parseStrBody (acc : List Char) : List Char → Option (String × List Char)
  | [] => none
  | c :: rest =>
    if c = '"' then some (String.mk acc.reverse, rest)
    else if c = '\\' then
      match rest with
      | [] => none
      | e :: rest2 =>
        if e = '"' then parseStrBody ('"' :: acc) rest2
        else if e = '\\' then parseStrBody ('\\' :: acc) rest2
        else if e = '/' then parseStrBody ('/' :: acc) rest2
        else if e = 'b' then parseStrBody ('\x08' :: acc) rest2
        else if e = 'f' then parseStrBody ('\x0c' :: acc) rest2
        else if e = 'n' then parseStrBody ('\n' :: acc) rest2
        else if e = 'r' then parseStrBody ('\r' :: acc) rest2
        else if e = 't' then parseStrBody ('\t' :: acc) rest2
        else if e = 'u' then
          match rest2 with
          | h1 :: h2 :: h3 :: h4 :: rest3 =>
            if [h1, h2, h3, h4].all (fun h => h.isDigit || ('a' ≤ h ∧ h ≤ 'f') || ('A' ≤ h ∧ h ≤ 'F')) then
              let hexVal (h : Char) : Nat :=
                if h.isDigit then digitVal h
                else if 'a' ≤ h ∧ h ≤ 'f' then h.toNat - 'a'.toNat + 10
                else h.toNat - 'A'.toNat + 10
              let n := ((hexVal h1 * 16 + hexVal h2) * 16 + hexVal h3) * 16 + hexVal h4
              if n.isValidChar then parseStrBody (Char.ofNat n :: acc) rest3
              else parseStrBody ('�' :: acc) rest3
            else none
          | _ => none
        else none
    else parseStrBody (c :: acc) rest

/-- Parse a JSON number (grammar of RFC 8259: no leading zeros, optional
fraction and exponent).  The value is represented exactly as a rational. -/
def parseNum (cs : List Char) : Option (Json × List Char) :=
  let (sign, cs1) : ℚ × List Char :=
    match cs with
    | '-' :: rest => (-1, rest)
    | _ => (1, cs)
  let intDigits := cs1.takeWhile Char.isDigit
  let cs2 := cs1.dropWhile Char.isDigit
  if intDigits = [] then none
  else if intDigits.length > 1 ∧ intDigits.head? = some '0' then none
  else
    let (fracDigits, cs3) : List Char × List Char :=
      match cs2 with
      | '.' :: rest => (rest.takeWhile Char.isDigit, rest.dropWhile Char.isDigit)
      | _ => ([], cs2)
    if cs2 ≠ cs3 ∧ fracDigits = [] then none
    else
      let (expPart, cs4) : Option (Bool × List Char) × List Char :=
        match cs3 with
        | 'e' :: '-' :: rest => (some (true, rest.takeWhile Char.isDigit), rest.dropWhile Char.isDigit)
        | 'e' :: '+' :: rest => (some (false, rest.takeWhile Char.isDigit), rest.dropWhile Char.isDigit)
        | 'e' :: rest => (some (false, rest.takeWhile Char.isDigit), rest.dropWhile Char.isDigit)
        | 'E' :: '-' :: rest => (some (true, rest.takeWhile Char.isDigit), rest.dropWhile Char.isDigit)
        | 'E' :: '+' :: rest => (some (false, rest.takeWhile Char.isDigit), rest.dropWhile Char.isDigit)
        | 'E' :: rest => (some (false, rest.takeWhile Char.isDigit), rest.dropWhile Char.isDigit)
        | _ => (none, cs3)
      match expPart with
      | some (_, []) => none
      | some (negExp, expDigits) =>
        let mant : ℚ := sign * (digitsToNat (intDigits ++ fracDigits) : ℚ)
        let e : ℤ := (if negExp then -(digitsToNat expDigits : ℤ) else (digitsToNat expDigits : ℤ)) - fracDigits.length
        some (.num (mant * (10 : ℚ) ^ e), cs4)
      | none =>
        let mant : ℚ := sign * (digitsToNat (intDigits ++ fracDigits) : ℚ)
        some (.num (mant * (10 : ℚ) ^ (-(fracDigits.length : ℤ))), cs3)

mutual

/-- Parse one JSON value, returning it with the unconsumed remainder. -/
def parseVal : Nat → List Char → Option (Json × List Char)
  | 0, _ => none
  | fuel + 1, cs =>
    match cs.dropWhile isJsonWs with
    | [] => none
    | c :: rest =>
      if c = '{' then parseObjBody fuel rest
      else if c = '[' then parseArrBody fuel rest
      else if c = '"' then (parseStrBody [] rest).map (fun p => (.str p.1, p.2))
      else if c = 't' then
        if rest.take 3 = ['r', 'u', 'e'] then some (.bool true, rest.drop 3) else none
      else if c = 'f' then
        if rest.take 4 = ['a', 'l', 's', 'e'] then some (.bool false, rest.drop 4) else none
      else if c = 'n' then
        if rest.take 3 = ['u', 'l', 'l'] then some (.null, rest.drop 3) else none
      else if c = '-' ∨ c.isDigit then parseNum (c :: rest)
      else none

/-- Parse the remainder of an object, starting just after `{`. -/
def parseObjBody : Nat → List Char → Option (Json × List Char)
  | 0, _ => none
  | fuel + 1, cs =>
    match cs.dropWhile isJsonWs with
    | '}' :: rest => some (.obj [], rest)
    | cs1 => (parseMembers fuel cs1).map (fun p => (.obj p.1, p.2))

/-- Parse one or more `"key": value` members followed by `}`. -/
def parseMembers : Nat → List Char → Option (List (String × Json) × List Char)
  | 0, _ => none
  | fuel + 1, cs =>
    match cs.dropWhile isJsonWs with
    | '"' :: rest =>
      match parseStrBody [] rest with
      | none => none
      | some (key, rest1) =>
        match rest1.dropWhile isJsonWs with
        | ':' :: rest2 =>
          match parseVal fuel rest2 with
          | none => none
          | some (v, rest3) =>
            match rest3.dropWhile isJsonWs with
            | ',' :: rest4 =>
              (parseMembers fuel rest4).map (fun p => ((key, v) :: p.1, p.2))
            | '}' :: rest4 => some ([(key, v)], rest4)
            | _ => none
        | _ => none
    | _ => none

/-- Parse the remainder of an array, starting just after `[`. -/
def parseArrBody : Nat → List Char → Option (Json × List Char)
  | 0, _ => none
  | fuel + 1, cs =>
    match cs.dropWhile isJsonWs with
    | ']' :: rest => some (.arr [], rest)
    | cs1 => (parseItems fuel cs1).map (fun p => (.arr p.1, p.2))

/-- Parse one or more array items followed by `]`. -/
def parseItems : Nat → List Char → Option (List Json × List Char)
  | 0, _ => none
  | fuel + 1, cs =>
    match parseVal fuel cs with
    | none => none
    | some (v, rest) =>
      match rest.dropWhile isJsonWs with
      | ',' :: rest1 => (parseItems fuel rest1).map (fun p => (v :: p.1, p.2))
      | ']' :: rest1 => some ([v], rest1)
      | _ => none

end

/-- `json.loads`: parse a complete JSON document; trailing content other than
whitespace is an error. -/
def loads (s : String) : Option Json :=
  match parseVal (s.length + 1) s.data with
  | some (v, rest) => if rest.dropWhile isJsonWs = [] then some v else none
  | none => none

/-! ## The response decoder (`app/llm.py`: `_decode_llm_json` and friends) -/

/-- The whitespace class of Python's `str.strip()` and of `\s` in the fence
regular expression (ASCII range). -/
def isPySpace (c : Char) : Bool :=
  c = ' ' || c = '\t' || c = '\n' || c = '\r' || c = '\x0b' || c = '\x0c'

/-- `text.strip()`. -/
def pyStrip (s : String) : String :=
  String.mk (((s.data.dropWhile isPySpace).reverse.dropWhile isPySpace).reverse)

/-- `text.find(c)`: index of the first occurrence, `-1` when absent. -/
def pyFind (cs : List Char) (c : Char) : Int :=
  match cs.findIdx? (· = c) with
  | some i => (i : Int)
  | none => -1

/-- `text.rfind(c)`: index of the last occurrence, `-1` when absent. -/
def pyRFind (cs : List Char) (c : Char) : Int :=
  match cs.reverse.findIdx? (· = c) with
  | some i => ((cs.length - 1 - i : Nat) : Int)
  | none => -1

def fenceTicks : List Char := "```".data

/-- After the closing brace candidate the fence pattern requires `\s*` and
then three backticks. -/
def wsFence (cs : List Char) : Bool :=
  fenceTicks.isPrefixOf (cs.dropWhile isPySpace)

/-- Index (relative to the start of `cs`, offset by `i`) of the LAST
character `}` that is followed by `\s*` and a closing fence — the greedy
choice the backtracking group `\{[\s\S]*\}` makes in
`re.search(r"```(?:json)?\s*(\{[\s\S]*\})\s*```", text)`. -/
def lastCloseIdx : List Char → Nat → Option Nat
  | [], _ => none
  | c :: rest, i =>
    match lastCloseIdx rest (i + 1) with
    | some j => some j
    | none => if c = '}' ∧ wsFence rest then some i else none

/-- Match the group `(\{[\s\S]*\})\s*```​` starting at `cs` (which the caller
has positioned just after `​```(?:json)?\s*`). -/
def matchFenceBody (cs : List Char) : Option (List Char) :=
  match cs with
  | '{' :: _ => (lastCloseIdx cs 0).map (fun j => cs.take (j + 1))
  | _ => none

/-- Try to match the whole fence pattern anchored at `cs`; the optional
`(?:json)?` is tried greedily first, then empty, as the regex engine does. -/
def matchFenceAt (cs : List Char) : Option (List Char) :=
  if fenceTicks.isPrefixOf cs then
    let afterTicks := cs.drop 3
    let withJson :=
      if ['j', 's', 'o', 'n'].isPrefixOf afterTicks then
        matchFenceBody ((afterTicks.drop 4).dropWhile isPySpace)
      else none
    match withJson with
    | some g => some g
    | none => matchFenceBody (afterTicks.dropWhile isPySpace)
  else none

/-- `re.search` of the fence pattern: leftmost match wins. -/
def reSearchFence : List Char → Option (List Char)
  | [] => none
  | c :: rest =>
    match matchFenceAt (c :: rest) with
    | some g => some g
    | none => reSearchFence rest

/-- Outcome of `_decode_llm_json`. -/
inductive DecodeOut where
  /-- The extracted JSON object (its members). -/
  | ok (members : List (String × Json))
  /-- `json.JSONDecodeError` was raised. -/
  | decodeErr
  /-- `TypeError` was raised (`"".join` over a non-string part). -/
  | typeErr
deriving Repr

/-- The text contributed by one element of a multi-part content list:
`part.get("text", "")` for dicts, `str(part)` otherwise.  A dict whose
`"text"` value is not a string makes `"".join` raise `TypeError` (`none`). -/
def partText (part : Json) : Option String :=
  match part with
  | .obj mem =>
    match jlookup mem "text" with
    | some (.str s) => some s
    | none => some ""
    | some _ => none
  | p => some (pyStr p)

/-- The three decoding stages of `_decode_llm_json`, applied to the stripped
text: (1) direct parse, (2) fenced code block, (3) first `{` to last `}`
substring; a parsed non-object value is rejected with `JSONDecodeError`. -/
def decodeStages (text : String) : DecodeOut :=
  match loads text with
  | some (.obj m) => .ok m
  | some _ => .decodeErr
  | none =>
    match reSearchFence text.data with
    | some inner =>
      match loads (String.mk inner) with
      | some (.obj m) => .ok m
      | _ => .decodeErr
    | none =>
      let start := pyFind text.data '{'
      let stop := pyRFind text.data '}'
      if start < 0 ∨ stop < 0 ∨ start ≥ stop then .decodeErr
      else
        match loads (String.mk ((text.data.take (stop.toNat + 1)).drop start.toNat)) with
        | some (.obj m) => .ok m
        | _ => .decodeErr

/-- `_decode_llm_json(content)`: list contents are concatenated part-wise
before the three stages run on the stripped text. -/
def decode_llm_json (content : Json) : DecodeOut :=
  match content with
  | .arr parts =>
    match parts.mapM partText with
    | none => .typeErr
    | some texts => decodeStages (pyStrip (String.join texts))
  | c => decodeStages (pyStrip (pyStr c))

/-- Outcome of `_parse_tool_arguments`. -/
inductive ArgsOut where
  | ok (members : List (String × Json))
  | decodeErr
deriving Repr

/-- `_parse_tool_arguments(raw)`: dicts pass through, `None`/`""` become the
empty dict, strings must parse to a JSON object, everything else fails. -/
def parse_tool_arguments (raw : Json) : ArgsOut :=
  match raw with
  | .obj m => .ok m
  | .null => .ok []
  | .str "" => .ok []
  | .str s =>
    match loads s with
    | some (.obj m) => .ok m
    | _ => .decodeErr
  | _ => .decodeErr

/-- Outcome of `_parse_llm_choice`. -/
inductive ChoiceOut where
  | ok (reply : Json)
  | decodeErr
  | typeErr
deriving Repr

/-- `_parse_llm_choice(message)`: truthy content delegates to the text
decoder; otherwise the first structured tool call is read and a reply with
empty response text is synthesized. -/
def parse_llm_choice (message : List (String × Json)) : ChoiceOut :=
  let content := jgetD message "content" .null
  if jtruthy content then
    match decode_llm_json content with
    | .ok m => .ok (.obj m)
    | .decodeErr => .decodeErr
    | .typeErr => .typeErr
  else
    let toolCalls :=
      let tc := jgetD message "tool_calls" .null
      if jtruthy tc then tc
      else
        let fc := jgetD message "function_calls" .null
        if jtruthy fc then fc else .arr []
    match toolCalls with
    | .arr (call :: _) =>
      match call with
      | .obj callM =>
        match jgetD callM "function" (.obj callM) with
        | .obj funcM =>
          let toolName :=
            let n := jgetD funcM "name" .null
            if jtruthy n then n else jgetD callM "name" .null
          match parse_tool_arguments (jgetD funcM "arguments" (jgetD callM "arguments" (.obj []))) with
          | .decodeErr => .decodeErr
          | .ok payload =>
            match toolName with
            | .str s =>
              if pyStrip s ≠ "" then
                .ok (.obj [("response", .str ""),
                  ("action", .obj [("tool", .str s), ("payload", .obj payload)])])
              else .decodeErr
            | _ => .decodeErr
        | _ => .decodeErr
      | _ => .decodeErr
    | _ => .decodeErr

/-! ## The intent classifier (`app/orchestrator.py`)

The float constants of the source are represented as rationals given in
lowest terms as explicit structure literals (so that they evaluate inside
the kernel); the bridging lemmas `q045_eq` … below identify them with the
corresponding decimal literals. -/

def q00 : ℚ := ⟨0, 1, by norm_num, by norm_num⟩
def q035 : ℚ := ⟨7, 20, by norm_num, by norm_num⟩
def q045 : ℚ := ⟨9, 20, by norm_num, by norm_num⟩
def q065 : ℚ := ⟨13, 20, by norm_num, by norm_num⟩
def q075 : ℚ := ⟨3, 4, by norm_num, by norm_num⟩
def q08 : ℚ := ⟨4, 5, by norm_num, by norm_num⟩
def q085 : ℚ := ⟨17, 20, by norm_num, by norm_num⟩
def q095 : ℚ := ⟨19, 20, by norm_num, by norm_num⟩

/-- `str.lower()` restricted to the alphabets the keyword sets can meet
(ASCII plus the Latin-1 uppercase range, which covers every accented letter
occurring in the Portuguese keywords). -/
def pyLowerChar (c : Char) : Char :=
  if 'A' ≤ c ∧ c ≤ 'Z' then Char.ofNat (c.toNat + 32)
  else if 0xC0 ≤ c.toNat ∧ c.toNat ≤ 0xDE ∧ c.toNat ≠ 0xD7 then Char.ofNat (c.toNat + 32)
  else c

def pyLower (s : String) : String := String.mk (s.data.map pyLowerChar)

/-- `keyword in text` (substring containment). -/
def containsSub (kw text : String) : Bool :=
  text.data.tails.any (fun suffix => kw.data.isPrefixOf suffix)

def mentions_email (t : String) : Bool :=
  ["email", "e-mail", "gmail", "mensagem"].any (fun k => containsSub k t)

def mentions_search (t : String) : Bool :=
  ["buscar", "procurar", "pesquisar", "encontr"].any (fun k => containsSub k t)

def mentions_draft (t : String) : Bool :=
  ["rascunho", "draft", "esboço"].any (fun k => containsSub k t)

def mentions_send (t : String) : Bool :=
  ["enviar", "mande", "dispare", "envie"].any (fun k => containsSub k t)

def mentions_read (t : String) : Bool :=
  ["ler", "abrir", "mostrar", "ver"].any (fun k => containsSub k t)

def mentions_calendar (t : String) : Bool :=
  ["agenda", "calendario", "calendário"].any (fun k => containsSub k t)

def mentions_list (t : String) : Bool :=
  ["listar", "mostrar", "ver", "próxim"].any (fun k => containsSub k t)

def mentions_create (t : String) : Bool :=
  ["criar", "agendar", "marcar"].any (fun k => containsSub k t)

def mentions_modify (t : String) : Bool :=
  ["alterar", "mudar", "remarcar", "editar"].any (fun k => containsSub k t)

def mentions_notes (t : String) : Bool :=
  ["nota", "notas", "anotação", "anotacoes"].any (fun k => containsSub k t)

def mentions_tasks (t : String) : Bool :=
  ["tarefa", "tarefas", "to-do", "todo"].any (fun k => containsSub k t)

def mentions_spotify (t : String) : Bool :=
  ["spotify", "música", "musica", "som"].any (fun k => containsSub k t)

def mentions_play (t : String) : Bool :=
  ["tocar", "play", "reproduzir", "iniciar"].any (fun k => containsSub k t)

def mentions_pause (t : String) : Bool :=
  ["pausar", "pause", "parar"].any (fun k => containsSub k t)

def mentions_skip (t : String) : Bool :=
  ["pular", "próxima", "proxima", "skip"].any (fun k => containsSub k t)

structure OrchestrationDecision where
  tool : Option String
  reason : String
  confidence : ℚ
deriving Repr, DecidableEq

def HIGH_CONFIDENCE_THRESHOLD : ℚ := q075

def is_high_confidence (d : OrchestrationDecision) : Bool :=
  decide (HIGH_CONFIDENCE_THRESHOLD ≤ d.confidence)

/-- The `matched_tools` accumulator of `decide_tool`, one `(tool, reason,
confidence)` triple per (domain, action) keyword pair that fires. -/
def matched_tools (normalized : String) : List (String × String × ℚ) :=
  (if mentions_email normalized then
    (if mentions_send normalized then [("email.send", "email_send_keyword", q085)] else []) ++
    (if mentions_draft normalized then [("email.draft", "email_draft_keyword", q085)] else []) ++
    (if mentions_read normalized then [("email.read", "email_read_keyword", q08)] else []) ++
    (if mentions_search normalized then [("email.search", "email_search_keyword", q08)] else [])
  else []) ++
  (if mentions_calendar normalized then
    (if mentions_modify normalized then [("calendar.modify_event", "calendar_modify_keyword", q085)] else []) ++
    (if mentions_create normalized then [("calendar.create_event", "calendar_create_keyword", q085)] else []) ++
    (if mentions_list normalized then [("calendar.list_events", "calendar_list_keyword", q08)] else [])
  else []) ++
  (if mentions_notes normalized then
    (if mentions_create normalized then [("notes.create", "notes_create_keyword", q08)] else [])
  else []) ++
  (if mentions_tasks normalized then
    (if mentions_create normalized then [("tasks.create", "tasks_create_keyword", q08)] else []) ++
    (if mentions_list normalized then [("tasks.list", "tasks_list_keyword", q075)] else [])
  else []) ++
  (if mentions_spotify normalized then
    (if mentions_pause normalized then [("spotify.pause", "spotify_pause_keyword", q085)] else []) ++
    (if mentions_skip normalized then [("spotify.skip", "spotify_skip_keyword", q085)] else []) ++
    (if mentions_play normalized then [("spotify.play", "spotify_play_keyword", q085)] else [])
  else [])

/-- `decide_tool(message)`: no match, exactly one match, or the ambiguous
low-confidence decision. -/
def decide_tool (message : String) : OrchestrationDecision :=
  let normalized := pyLower message
  match matched_tools normalized with
  | [] => ⟨none, "no_tool_match", q00⟩
  | [(t, r, c)] => ⟨some t, r, c⟩
  | l => ⟨none, "ambiguous_tool_match:" ++ String.intercalate "," (l.map (fun x => x.1)), q045⟩

/-! ## Python `==` on decoded JSON values

Structural equality; the cross-type equalities of Python (`True == 1`) and
the order-insensitivity of dict comparison are not exercised by any claim
(the compared values are tool identifiers: strings or `None`). -/

mutual

def pyEq : Json → Json → Bool
  | .null, .null => true
  | .bool a, .bool b => a == b
  | .num a, .num b => a == b
  | .str a, .str b => a == b
  | .arr a, .arr b => pyEqList a b
  | .obj a, .obj b => pyEqObj a b
  | _, _ => false

def pyEqList : List Json → List Json → Bool
  | [], [] => true
  | a :: rest1, b :: rest2 => pyEq a b && pyEqList rest1 rest2
  | _, _ => false

def pyEqObj : List (String × Json) → List (String × Json) → Bool
  | [], [] => true
  | (k1, v1) :: rest1, (k2, v2) :: rest2 => k1 == k2 && pyEq v1 v2 && pyEqObj rest1 rest2
  | _, _ => false

end

/-! ## The confirmation store (`app/pending_actions.py`) -/

structure PendingAction where
  action_id : String
  tool : String
  payload : Json
  created_at : String
  status : String
deriving Repr

/-- The live `_pending` dict: an insertion-ordered association list with
unique keys, as a CPython dict. -/
abbrev Store := List (String × PendingAction)

/-- An `HTTPException`: status code and the `error.code` of its detail. -/
structure HttpErr where
  status : Nat
  code : String
deriving Repr, DecidableEq

def storeFind (st : Store) (id : String) : Option PendingAction :=
  (st.find? (fun p => p.1 = id)).map (fun p => p.2)

def storeRemove (st : Store) (id : String) : Store :=
  st.filter (fun p => p.1 ≠ id)

/-- `self._pending[action_id] = action`: replace in place when the key
exists, append otherwise. -/
def storeInsert (st : Store) (id : String) (a : PendingAction) : Store :=
  if (st.find? (fun p => p.1 = id)).isSome then
    st.map (fun p => if p.1 = id then (id, a) else p)
  else st ++ [(id, a)]

/-- `PendingActionStore.create`: allocate the record in status
`pending_confirmation`, store and persist it.  The fresh uuid and the
current timestamp are explicit arguments. -/
def storeCreate (st : Store) (tool : String) (payload : Json) (freshId now : String) :
    PendingAction × Store :=
  let action : PendingAction :=
    { action_id := freshId, tool := tool, payload := payload,
      created_at := now, status := "pending_confirmation" }
  (action, storeInsert st freshId action)

/-- `PendingActionStore.pop`: remove and return, or `404` when absent. -/
def storePop (st : Store) (id : String) : Option (PendingAction × Store) :=
  match storeFind st id with
  | none => none
  | some a => some (a, storeRemove st id)

/-- `_persist` snapshots the full live map to durable storage after every
mutation; serialization (`asdict` + ISO timestamps) round-trips verbatim, so
the file content is modelled as the map itself. -/
def persistStore (st : Store) : Store := st

/-- `require_confirmation(tool, payload)`: create a pending record and
return its summary dict. -/
def require_confirmation (st : Store) (tool : String) (payload : Json) (freshId now : String) :
    Json × Store :=
  let (action, st') := storeCreate st tool payload freshId now
  (.obj [("status", .str action.status), ("action_id", .str action.action_id),
         ("tool", .str action.tool), ("created_at", .str action.created_at)], st')

/-- `confirm_action(action_id, confirmed)`: reject unless `confirmed` is
exactly `True`; pop the record, mark it confirmed, persist. -/
def confirm_action (st : Store) (actionId : String) (confirmed : Bool) :
    Except HttpErr (PendingAction × Store) :=
  if !confirmed then .error ⟨400, "confirmation_required"⟩
  else
    match storePop st actionId with
    | none => .error ⟨404, "pending_action_not_found"⟩
    | some (a, st') => .ok ({ a with status := "confirmed" }, st')

/-- `cancel_action(action_id, confirmed)`: same literal check; pop, mark
cancelled, persist, return a summary dict. -/
def cancel_action (st : Store) (actionId : String) (confirmed : Bool) (now : String) :
    Except HttpErr (Json × Store) :=
  if !confirmed then .error ⟨400, "confirmation_required"⟩
  else
    match storePop st actionId with
    | none => .error ⟨404, "pending_action_not_found"⟩
    | some (a, st') =>
      let a' := { a with status := "cancelled" }
      .ok (.obj [("status", .str a'.status), ("action_id", .str a'.action_id),
                 ("tool", .str a'.tool), ("cancelled_at", .str now)], st')

/-- The store states reachable through the module's operations (startup from
an empty store, `create`, successful `confirm`/`cancel`, and a restart that
reloads the persisted snapshot). -/
inductive ReachableStore : Store → Prop
  | empty : ReachableStore []
  | create (st : Store) (tool : String) (payload : Json) (freshId now : String) :
      ReachableStore st → ReachableStore (storeCreate st tool payload freshId now).2
  | confirm (st : Store) (id : String) (a : PendingAction) (st' : Store) :
      ReachableStore st → confirm_action st id true = .ok (a, st') → ReachableStore st'
  | cancel (st : Store) (id : String) (j : Json) (st' : Store) (now : String) :
      ReachableStore st → cancel_action st id true now = .ok (j, st') → ReachableStore st'
  | reload (st : Store) : ReachableStore st → ReachableStore (persistStore st)

/-! ## The tool dispatch table and chat pipeline (`app/chat.py`) -/

/-- One side effect of the pipeline. -/
inductive Effect where
  /-- Invocation of a tool's side-effecting handler. -/
  | handlerCall (tool : String) (payload : Json)
  /-- `record_event(tool, status, payload)`. -/
  | auditEvent (tool status : String) (payload : Json)
  /-- Creation of a pending confirmation record. -/
  | pendingCreate (tool : String) (actionId : String)
deriving Repr

structure ToolConfig where
  /-- The handler function, by name; `none` mirrors `"handler": None`. -/
  handlerName : Option String
  requires_confirmation : Bool
deriving Repr, DecidableEq

def TOOL_HANDLERS : List (String × ToolConfig) := [
  ("email.search", ⟨some "email_search", false⟩),
  ("email.read", ⟨some "email_read", false⟩),
  ("email.draft", ⟨some "email_draft", false⟩),
  ("email.send", ⟨none, true⟩),
  ("calendar.list_events", ⟨some "calendar_list", false⟩),
  ("calendar.create_event", ⟨none, true⟩),
  ("calendar.modify_event", ⟨none, true⟩),
  ("notes.create", ⟨none, true⟩),
  ("tasks.create", ⟨none, true⟩),
  ("tasks.list", ⟨some "list_tasks", false⟩),
  ("spotify.play", ⟨some "spotify_play", false⟩),
  ("spotify.pause", ⟨some "spotify_pause", false⟩),
  ("spotify.skip", ⟨some "spotify_skip", false⟩)]

def CONFIRMATION_REQUIRED_TOOLS : List String :=
  ["email.send", "calendar.create_event", "calendar.modify_event",
   "notes.create", "tasks.create"]

def lookupToolConfig (tool : String) : Option ToolConfig :=
  (TOOL_HANDLERS.find? (fun p => p.1 = tool)).map (fun p => p.2)

/-- Result of a request handler: a returned value, a raised
`HTTPException`, or an uncaught Python exception. -/
inductive PyOutcome where
  | ok (result : Json)
  | httpError (e : HttpErr)
  | crash
deriving Repr

structure ChatOut where
  outcome : PyOutcome
  store : Store
  effects : List Effect
deriving Repr

/-- External inputs of one chat request: the decoded reply the model
request pipeline hands back (always an object), the value returned by
whichever read-only handler runs, a fresh uuid and the current time. -/
structure PlanCtx where
  llmReply : List (String × Json)
  handlerResult : Json
  freshId : String
  now : String

/-- `_parse_history`. -/
def parse_history (payload : List (String × Json)) : List (String × String) :=
  match jlookup payload "history" with
  | some (.arr items) =>
    items.filterMap (fun item =>
      match item with
      | .obj m =>
        match jlookup m "role", jlookup m "content" with
        | some (.str role), some (.str content) =>
          if (role = "user" ∨ role = "assistant") ∧ pyStrip content ≠ "" then
            some (role, pyStrip content)
          else none
        | _, _ => none
      | _ => none)
  | _ => []

/-- `_require_message`: the `message` field must be a truthy string. -/
def require_message (payload : List (String × Json)) : Option String :=
  match jlookup payload "message" with
  | some (.str s) => if s ≠ "" then some s else none
  | _ => none

/-- `_compute_confidence`. -/
def compute_confidence (requestedTool : Option String) (actionTool : Json) : ℚ :=
  let reqTruthy : Bool := match requestedTool with | some s => !(s == "") | none => false
  let matchesReq : Bool := match requestedTool with | some s => pyEq actionTool (.str s) | none => false
  if reqTruthy && matchesReq then q095
  else if reqTruthy && (match actionTool with | .null => true | _ => false) then q035
  else if !reqTruthy && jtruthy actionTool then q065
  else q08

/-- The fixed clarification text returned on a forced-tool mismatch. -/
def MISMATCH_RESPONSE : String :=
  "Encontrei um conflito na interpretação do pedido. Pode confirmar a ação desejada?"

def decisionJson (decision : OrchestrationDecision) : Json :=
  .obj [("tool", match decision.tool with | some t => .str t | none => .null),
        ("reason", .str decision.reason),
        ("confidence", .num decision.confidence)]

/-- `plan_chat(settings, payload)` with the `generate_response` call and the
handler results supplied by `ctx`. -/
def plan_chat (ctx : PlanCtx) (st : Store) (payload : List (String × Json)) : ChatOut :=
  match require_message payload with
  | none => ⟨.httpError ⟨400, "missing_message"⟩, st, []⟩
  | some message =>
    let _history := parse_history payload
    let decision := decide_tool message
    let forcedTool : Option String :=
      if is_high_confidence decision then decision.tool else none
    let llm := ctx.llmReply
    let actionJ := jgetD llm "action" .null
    let actionTool : Json := match actionJ with | .obj m => jgetD m "tool" .null | _ => .null
    let responseText := jgetD llm "response" (.str "")
    if jtruthy actionJ then
      match actionJ with
      | .obj amem =>
        let toolJ := jgetD amem "tool" .null
        let mismatch : Bool :=
          match forcedTool with
          | some ft => !(ft == "") && !(pyEq toolJ (.str ft))
          | none => false
        if mismatch then
          ⟨.ok (.obj [("status", .str "requires_clarification"),
                      ("response", .str MISMATCH_RESPONSE),
                      ("fallback", .str "tool_mismatch"),
                      ("orchestration", .obj [("decision", decisionJson decision),
                                              ("llm_tool", toolJ)])]),
           st,
           [.auditEvent "orchestrator.mismatch" "fallback"
             (.obj [("message", .str message),
                    ("decision_tool", match decision.tool with | some t => .str t | none => .null),
                    ("decision_reason", .str decision.reason),
                    ("decision_confidence", .num decision.confidence),
                    ("forced_tool", match forcedTool with | some t => .str t | none => .null),
                    ("llm_tool", toolJ)])]⟩
        else
          let lowConfEvents : List Effect :=
            if decision.tool = none ∧ jtruthy toolJ then
              [.auditEvent "orchestrator.low_confidence_action" "observed"
                (.obj [("message", .str message),
                       ("decision_reason", .str decision.reason),
                       ("decision_confidence", .num decision.confidence),
                       ("llm_tool", toolJ)])]
            else []
          let actionPayload := jgetD amem "payload" (.obj [])
          match toolJ with
          | .str t =>
            match lookupToolConfig t with
            | none => ⟨.httpError ⟨400, "unsupported_tool"⟩, st, lowConfEvents⟩
            | some cfg =>
              if cfg.requires_confirmation then
                let (pending, st') := require_confirmation st t actionPayload ctx.freshId ctx.now
                ⟨.ok (.obj [("status", .str "pending_confirmation"),
                            ("response", responseText),
                            ("pending_action", pending)]),
                 st', lowConfEvents ++ [.pendingCreate t ctx.freshId]⟩
              else
                match cfg.handlerName with
                | some _ =>
                  ⟨.ok (.obj [("status", .str "ok"),
                              ("response", responseText),
                              ("tool_result", ctx.handlerResult)]),
                   st, lowConfEvents ++ [.handlerCall t actionPayload]⟩
                | none => ⟨.crash, st, lowConfEvents⟩
          | .arr _ => ⟨.crash, st, lowConfEvents⟩   -- unhashable dict key: TypeError
          | .obj _ => ⟨.crash, st, lowConfEvents⟩   -- unhashable dict key: TypeError
          | _ => ⟨.httpError ⟨400, "unsupported_tool"⟩, st, lowConfEvents⟩
      | _ => ⟨.crash, st, []⟩   -- truthy non-dict action: `.get` raises AttributeError
    else
      ⟨.ok (.obj [("response", responseText),
                  ("action", match actionJ with | .obj m => .obj m | _ => .null),
                  ("confidence", .num (compute_confidence decision.tool actionTool)),
                  ("requires_confirmation",
                    .bool (match actionTool with
                           | .str t => decide (t ∈ CONFIRMATION_REQUIRED_TOOLS)
                           | _ => false))]),
       st, []⟩

/-- `execute_chat_plan(settings, payload)`. -/
def execute_chat_plan (ctx : PlanCtx) (st : Store) (payload : List (String × Json)) : ChatOut :=
  let responseText := jgetD payload "response" (.str "")
  match jgetD payload "action" .null with
  | .null => ⟨.ok (.obj [("status", .str "ok"), ("response", responseText)]), st, []⟩
  | .obj amem =>
    let toolJ := jgetD amem "tool" .null
    let actionPayload := jgetD amem "payload" (.obj [])
    let runHandler (t : String) : ChatOut :=
      ⟨.ok (.obj [("status", .str "ok"), ("response", responseText),
                  ("tool_result", ctx.handlerResult)]),
       st, [.handlerCall t actionPayload]⟩
    let pend (t : String) : ChatOut :=
      let (pending, st') := require_confirmation st t actionPayload ctx.freshId ctx.now
      ⟨.ok (.obj [("status", .str "pending_confirmation"),
                  ("response", responseText),
                  ("pending_action", pending)]),
       st', [.pendingCreate t ctx.freshId]⟩
    if pyEq toolJ (.str "email.search") then runHandler "email.search"
    else if pyEq toolJ (.str "email.read") then runHandler "email.read"
    else if pyEq toolJ (.str "email.draft") then runHandler "email.draft"
    else if pyEq toolJ (.str "email.send") then pend "email.send"
    else if pyEq toolJ (.str "calendar.list_events") then runHandler "calendar.list_events"
    else if pyEq toolJ (.str "calendar.create_event") then pend "calendar.create_event"
    else if pyEq toolJ (.str "calendar.modify_event") then pend "calendar.modify_event"
    else if pyEq toolJ (.str "notes.create") then pend "notes.create"
    else if pyEq toolJ (.str "tasks.create") then pend "tasks.create"
    else if pyEq toolJ (.str "tasks.list") then runHandler "tasks.list"
    else if pyEq toolJ (.str "spotify.play") then runHandler "spotify.play"
    else if pyEq toolJ (.str "spotify.pause") then runHandler "spotify.pause"
    else if pyEq toolJ (.str "spotify.skip") then runHandler "spotify.skip"
    else ⟨.httpError ⟨400, "unsupported_tool"⟩, st, []⟩
  | _ => ⟨.httpError ⟨400, "invalid_action"⟩, st, []⟩

/-- `handle_chat`: run the planner, then feed its result to the executor. -/
def handle_chat (ctx : PlanCtx) (st : Store) (payload : List (String × Json)) : ChatOut :=
  let plan := plan_chat ctx st payload
  match plan.outcome with
  | .ok (.obj planMembers) =>
    let exec := execute_chat_plan ctx plan.store planMembers
    ⟨exec.outcome, exec.store, plan.effects ++ exec.effects⟩
  | .ok _ => ⟨.crash, plan.store, plan.effects⟩
  | other => ⟨other, plan.store, plan.effects⟩

/-! ## `execute_action` (`app/actions.py`) and the confirm/cancel routes
(`app/main.py`) -/

/-- `execute_action(settings, action)`: dispatch the confirmed action to its
side-effecting handler; unknown tools raise `501`. -/
def execute_action (action : PendingAction) (handlerResult : Json) :
    Except HttpErr Json × List Effect :=
  if action.tool = "calendar.create_event" then
    (.ok handlerResult, [.handlerCall action.tool action.payload])
  else if action.tool = "calendar.modify_event" then
    (.ok handlerResult, [.handlerCall action.tool action.payload])
  else if action.tool = "email.send" then
    (.ok handlerResult, [.handlerCall action.tool action.payload])
  else if action.tool = "notes.create" then
    (.ok handlerResult, [.handlerCall action.tool action.payload])
  else (.error ⟨501, "action_not_implemented"⟩, [])

/-- The `/confirm` route: coerce `confirmed` with `is True`, require an
`action_id`, run `confirm_action`, execute and audit. -/
def confirm_pending_action (st : Store) (body : List (String × Json)) (handlerResult : Json) :
    ChatOut :=
  let actionIdJ := jgetD body "action_id" .null
  let confirmed := pyEq (jgetD body "confirmed" .null) (.bool true)
  if !(jtruthy actionIdJ) then ⟨.httpError ⟨400, "missing_action_id"⟩, st, []⟩
  else
    match confirm_action st (pyStr actionIdJ) confirmed with
    | .error e => ⟨.httpError e, st, []⟩
    | .ok (action, st') =>
      let (res, effs) := execute_action action handlerResult
      match res with
      | .error e => ⟨.httpError e, st', effs⟩
      | .ok result =>
        ⟨.ok result, st', effs ++ [.auditEvent action.tool "confirmed" action.payload]⟩

/-- The `/cancel` route. -/
def cancel_pending_action (st : Store) (body : List (String × Json)) (now : String) : ChatOut :=
  let actionIdJ := jgetD body "action_id" .null
  let confirmed := pyEq (jgetD body "confirmed" .null) (.bool true)
  if !(jtruthy actionIdJ) then ⟨.httpError ⟨400, "missing_action_id"⟩, st, []⟩
  else
    match cancel_action st (pyStr actionIdJ) confirmed now with
    | .error e => ⟨.httpError e, st, []⟩
    | .ok (summary, st') => ⟨.ok summary, st', []⟩

/-! ## The model request pipeline (`app/llm.py`: `generate_response`) -/

/-- One prescribed outcome of an `httpx.post` call: a 2xx response with a
decoded JSON body, a status error (`raise_for_status` raises
`httpx.HTTPStatusError` for the given ≥400 code), or a transport-level
`httpx.HTTPError`. -/
inductive HttpOutcome where
  | success (body : Json)
  | httpStatus (code : Nat)
  | transportFail
deriving Repr

/-- The safe payload of one `record_llm_event` call (model id and duration
omitted: they are opaque here and carry no claim content). -/
structure TelemetryRecord where
  status : String
  errorSummary : Option String
deriving Repr, DecidableEq

/-- `_should_retry_http_error`. -/
def should_retry_http_error (code : Nat) : Bool :=
  code == 429 || code ≥ 500

structure LoopOut where
  events : List TelemetryRecord
  sleeps : List Nat
  result : Except Unit (Json × List HttpOutcome)
deriving Repr

/-- The `for attempt in range(retry_count + 1)` loop of `generate_response`:
legacy-format request, retrying on 429/5xx with per-attempt backoff
`backoff_ms * 2 ** attempt`; any other failure records one error telemetry
event and raises.  An exhausted oracle counts as a transport failure. -/
def retryLoop (retryCount backoffMs attempt : Nat) : List HttpOutcome → LoopOut
  | [] => ⟨[⟨"error", some "transport"⟩], [], .error ()⟩
  | o :: rest =>
    match o with
    | .success body => ⟨[], [], .ok (body, rest)⟩
    | .httpStatus code =>
      if attempt < retryCount ∧ should_retry_http_error code then
        let sleepMs := backoffMs * 2 ^ attempt
        let tail := retryLoop retryCount backoffMs (attempt + 1) rest
        ⟨tail.events, (if 0 < sleepMs then [sleepMs] else []) ++ tail.sleeps, tail.result⟩
      else ⟨[⟨"error", some ("HTTP " ++ toString code)⟩], [], .error ()⟩
    | .transportFail => ⟨[⟨"error", some "transport"⟩], [], .error ()⟩

inductive GenOutcome where
  | ok (reply : Json)
  | raised (e : HttpErr)
  | crash
deriving Repr

structure GenOut where
  events : List TelemetryRecord
  sleeps : List Nat
  outcome : GenOutcome
deriving Repr

/-- Python exceptions raised by subscription on decoded JSON. -/
inductive PyExc where
  | keyErr
  | idxErr
  | typeErr
deriving Repr, DecidableEq

/-- `v[key]` for a string key. -/
def pyIndexStr (v : Json) (key : String) : Except PyExc Json :=
  match v with
  | .obj m => match jlookup m key with | some x => .ok x | none => .error .keyErr
  | _ => .error .typeErr

/-- `v[i]` for an integer index. -/
def pyIndexNat (v : Json) (i : Nat) : Except PyExc Json :=
  match v with
  | .arr items => match items.get? i with | some x => .ok x | none => .error .idxErr
  | .str s => match s.data.get? i with | some c => .ok (.str (String.mk [c])) | none => .error .idxErr
  | .obj _ => .error .keyErr
  | _ => .error .typeErr

def extractContent (body : Json) : Except PyExc Json := do
  let choices ← pyIndexStr body "choices"
  let c0 ← pyIndexNat choices 0
  let msg ← pyIndexStr c0 "message"
  pyIndexStr msg "content"

def extractMessage (body : Json) : Except PyExc Json := do
  let choices ← pyIndexStr body "choices"
  let c0 ← pyIndexNat choices 0
  pyIndexStr c0 "message"

/-- The decode phase of `generate_response`: direct `_decode_llm_json` on
the content; `KeyError`/`IndexError`/`JSONDecodeError` record one error
telemetry event and fall back to `_parse_llm_choice` (whose own failures
propagate uncaught); `TypeError` is handled by the second `except` clause,
which raises `llm_bad_response` without telemetry.  A successful decode
records one `ok` telemetry event. -/
def decodePhase (loop : LoopOut) (body : Json) : GenOut :=
  let fallbackChoice : GenOut :=
    let errEvents := loop.events ++ [⟨"error", some "decode_error"⟩]
    match extractMessage body with
    | .error _ => ⟨errEvents, loop.sleeps, .crash⟩
    | .ok (.obj msgM) =>
      match parse_llm_choice msgM with
      | .ok reply => ⟨errEvents ++ [⟨"ok", none⟩], loop.sleeps, .ok reply⟩
      | _ => ⟨errEvents, loop.sleeps, .crash⟩
    | .ok _ => ⟨errEvents, loop.sleeps, .crash⟩
  match extractContent body with
  | .ok content =>
    match decode_llm_json content with
    | .ok m => ⟨loop.events ++ [⟨"ok", none⟩], loop.sleeps, .ok (.obj m)⟩
    | .decodeErr => fallbackChoice
    | .typeErr => ⟨loop.events, loop.sleeps, .raised ⟨502, "llm_bad_response"⟩⟩
  | .error .typeErr => ⟨loop.events, loop.sleeps, .raised ⟨502, "llm_bad_response"⟩⟩
  | .error _ => fallbackChoice

/-- `generate_response(settings, message, forced_tool, history)`, driven by
the oracle of HTTP outcomes.  After the retry loop succeeds, the code
discards that response and issues a fresh native-tools request with a
legacy-format fallback; failures of these later calls raise without
recording telemetry.  (The `if response is None` block after the loop is
unreachable — the loop either breaks with a response or raises — and is not
modelled.) -/
def generate_response (retryCount backoffMs : Nat) (oracle : List HttpOutcome) : GenOut :=
  let loop := retryLoop retryCount backoffMs 0 oracle
  match loop.result with
  | .error _ => ⟨loop.events, loop.sleeps, .raised ⟨502, "llm_request_failed"⟩⟩
  | .ok (_firstBody, rest) =>
    match rest with
    | [] => ⟨loop.events, loop.sleeps, .raised ⟨502, "llm_request_failed"⟩⟩
    | .success body2 :: _ => decodePhase loop body2
    | .httpStatus _ :: rest2 =>
      match rest2 with
      | .success body3 :: _ => decodePhase loop body3
      | _ => ⟨loop.events, loop.sleeps, .raised ⟨502, "llm_request_failed"⟩⟩
    | .transportFail :: _ => ⟨loop.events, loop.sleeps, .raised ⟨502, "llm_request_failed"⟩⟩

/-! ## Concrete data used in theorem statements and witnesses -/

/-- The model-proposed action of the mismatch scenario in the spec: the
classifier forces `email.send`, the model answers `calendar.create_event`. -/
def mismatchAction : List (String × Json) :=
  [("tool", .str "calendar.create_event"), ("payload", .obj [])]

def mismatchReply : List (String × Json) :=
  [("response", .str "ok"), ("action", .obj mismatchAction)]

def mismatchCtx : PlanCtx := ⟨mismatchReply, .null, "id-1", "t0"⟩

def mismatchBody : List (String × Json) :=
  [("message", .str "enviar email para o cliente")]

def gatedStore : Store :=
  [("a1", ⟨"a1", "email.send", .obj [], "t0", "pending_confirmation"⟩)]

def gatedBody : List (String × Json) :=
  [("action_id", .str "a1"), ("confirmed", .bool true)]

/-- The backtick character. -/
def btChar : Char := Char.ofNat 96

/-- The characters on which the parser's first dispatch can begin a value
(including the `NaN`/`Infinity` CPython extensions, conservatively). -/
def jsonStartChar (c : Char) : Bool :=
  c = '{' || c = '[' || c = '"' || c = 't' || c = 'f' || c = 'n' || c = '-' ||
    c.isDigit || c = 'N' || c = 'I'

/-- The concrete object text used to witness the decoder claim. -/
def wS : String := "\x7b\"response\":\"ok\",\"action\":null\x7d"

/-- The characters of `wS` between the braces. -/
def wMid : List Char := "\"response\":\"ok\",\"action\":null".data

/-- The members of the object `wS` denotes. -/
def wM : List (String × Json) := [("response", Json.str "ok"), ("action", Json.null)]

/-- A prose prefix with no brace and no backtick. -/
def wP : String := "Aqui temos: "

/-- The tail of `wP` after its first character. -/
def wPrest : List Char := "qui temos: ".data

/-- The LLM response body of the happy decode path: a single choice whose
message content is a JSON object in text form. -/
def okBody : Json :=
  .obj [("choices", .arr [
    .obj [("message",
      .obj [("content", .str "\x7b\"response\":\"ok\",\"action\":null\x7d")])]])]

/-- A response whose content is null but which carries a structured tool
call, so that the direct decode fails and `_parse_llm_choice` succeeds. -/
def choiceBody : Json :=
  .obj [("choices", .arr [
    .obj [("message",
      .obj [("content", .null),
            ("tool_calls", .arr [
              .obj [("function",
                .obj [("name", .str "tasks.create"), ("arguments", .obj [])])]])])]])]

/-! ## Helper lemmas -/

theorem mem_if_nil {α : Type} {c : Bool} {l : List α} {x : α} :
    x ∈ (if c then l else []) ↔ c = true ∧ x ∈ l := by
  cases c <;> simp

theorem ratLit_eq_div (n : Int) (d : Nat) (h1 : d ≠ 0) (h2 : n.natAbs.Coprime d) :
    (⟨n, d, h1, h2⟩ : ℚ) = (n : ℚ) / (d : ℚ) := by
  conv_lhs => rw [← Rat.num_div_den ⟨n, d, h1, h2⟩]

theorem q00_eq : q00 = 0 := by simp only [q00]; rw [ratLit_eq_div]; norm_num

theorem q035_eq : q035 = 0.35 := by simp only [q035]; rw [ratLit_eq_div]; norm_num

theorem q045_eq : q045 = 0.45 := by simp only [q045]; rw [ratLit_eq_div]; norm_num

theorem q065_eq : q065 = 0.65 := by simp only [q065]; rw [ratLit_eq_div]; norm_num

theorem q075_eq : q075 = 0.75 := by simp only [q075]; rw [ratLit_eq_div]; norm_num

theorem q08_eq : q08 = 0.8 := by simp only [q08]; rw [ratLit_eq_div]; norm_num

theorem q085_eq : q085 = 0.85 := by simp only [q085]; rw [ratLit_eq_div]; norm_num

theorem q095_eq : q095 = 0.95 := by simp only [q095]; rw [ratLit_eq_div]; norm_num

/-- Every triple the keyword matcher can emit carries a confidence weight in
the fixed 0.75–0.85 band. -/
theorem matched_tools_confidence_bounds {n : String} {x : String × String × ℚ}
    (hx : x ∈ matched_tools n) : 0.75 ≤ x.2.2 ∧ x.2.2 ≤ 0.85 := by
  simp only [matched_tools, List.mem_append, mem_if_nil, List.mem_singleton] at hx
  rcases hx with
    (((⟨-, (((⟨-, rfl⟩ | ⟨-, rfl⟩) | ⟨-, rfl⟩) | ⟨-, rfl⟩)⟩ |
       ⟨-, ((⟨-, rfl⟩ | ⟨-, rfl⟩) | ⟨-, rfl⟩)⟩) |
      ⟨-, -, rfl⟩) |
     ⟨-, (⟨-, rfl⟩ | ⟨-, rfl⟩)⟩) |
    ⟨-, ((⟨-, rfl⟩ | ⟨-, rfl⟩) | ⟨-, rfl⟩)⟩ <;>
    norm_num [q075_eq, q08_eq, q085_eq]

/-! ## Claims about the intent classifier -/

/-- C8: whenever the case-folded message matches two or more (domain,
action) keyword pairs, `decide_tool` returns the ambiguous decision: tool
unset, confidence exactly 0.45 — strictly below the 0.75 threshold, so the
decision is never high-confidence — and a reason embedding the comma-joined
candidate tool list. -/
theorem ambiguous_match_low_confidence (message : String)
    (h : 2 ≤ (matched_tools (pyLower message)).length) :
    decide_tool message =
      ⟨none, "ambiguous_tool_match:" ++
        String.intercalate "," ((matched_tools (pyLower message)).map (fun x => x.1)),
       0.45⟩ ∧
    is_high_confidence (decide_tool message) = false ∧ (0.45 : ℚ) < 0.75 := by
  obtain ⟨a, b, tl, hm⟩ : ∃ a b tl, matched_tools (pyLower message) = a :: b :: tl := by
    match hx : matched_tools (pyLower message) with
    | [] => rw [hx] at h; simp at h
    | [x] => rw [hx] at h; simp at h
    | a :: b :: tl => exact ⟨a, b, tl, rfl⟩
  have hd : decide_tool message =
      ⟨none, "ambiguous_tool_match:" ++
        String.intercalate "," ((matched_tools (pyLower message)).map (fun x => x.1)),
       q045⟩ := by
    simp only [decide_tool]
    rw [hm]
  refine ⟨by rw [hd, q045_eq], ?_, by norm_num⟩
  rw [hd]
  simp only [is_high_confidence, HIGH_CONFIDENCE_THRESHOLD, decide_eq_false_iff_not, not_le,
    q045_eq, q075_eq]
  norm_num

theorem ambiguous_match_low_confidence_witness :
    2 ≤ (matched_tools (pyLower "quero ver agenda e mandar email")).length ∧
    (decide_tool "quero ver agenda e mandar email" =
      ⟨none, "ambiguous_tool_match:" ++
        String.intercalate ","
          ((matched_tools (pyLower "quero ver agenda e mandar email")).map (fun x => x.1)),
       0.45⟩ ∧
     is_high_confidence (decide_tool "quero ver agenda e mandar email") = false ∧
     (0.45 : ℚ) < 0.75) :=
  ⟨by decide, ambiguous_match_low_confidence _ (by decide)⟩

/-- C9: whenever the case-folded message matches exactly one (domain,
action) keyword pair, `decide_tool` returns that pair's tool, reason and
fixed confidence weight, and the weight lies in the 0.75–0.85 band.
(Determinism and totality hold by construction: `decide_tool` is a pure
total Lean function of the message, so identical input gives identical
output and no input raises.) -/
theorem single_match_fixed_confidence (message t r : String) (c : ℚ)
    (h : matched_tools (pyLower message) = [(t, r, c)]) :
    decide_tool message = ⟨some t, r, c⟩ ∧ 0.75 ≤ c ∧ c ≤ 0.85 := by
  refine ⟨by simp only [decide_tool]; rw [h], ?_⟩
  have hx : (t, r, c) ∈ matched_tools (pyLower message) := by
    rw [h]; exact List.mem_singleton_self _
  exact matched_tools_confidence_bounds hx

theorem single_match_fixed_confidence_witness :
    matched_tools (pyLower "enviar email para o cliente") =
      [("email.send", "email_send_keyword", q085)] ∧
    (decide_tool "enviar email para o cliente" =
      ⟨some "email.send", "email_send_keyword", q085⟩ ∧
     (0.75 : ℚ) ≤ q085 ∧ q085 ≤ 0.85) :=
  ⟨by rfl, single_match_fixed_confidence _ _ _ _ (by rfl)⟩

/-! ## Claims about the confirmation store -/

theorem pyEq_bool_true_iff (v : Json) : pyEq v (.bool true) = true ↔ v = .bool true := by
  cases v <;> simp [pyEq]

theorem find?_filter_ne (st : Store) (id : String) :
    (st.filter (fun p => p.1 ≠ id)).find? (fun p => p.1 = id) = none := by
  induction st with
  | nil => rfl
  | cons p tl ih =>
    by_cases hp : p.1 = id
    · simp [List.filter_cons, hp, ih]
    · simp [List.filter_cons, hp, List.find?_cons, ih]

/-- Popping an id removes every trace of it from the live map. -/
theorem storeFind_remove (st : Store) (id : String) :
    storeFind (storeRemove st id) id = none := by
  simp [storeFind, storeRemove, find?_filter_ne]

/-- C2: both `/confirm` and `/cancel`, invoked with any `confirmed` value
other than the literal JSON `true` (false, a missing field, the string
`"yes"`, …), fail with the `confirmation_required` error and leave the
pending store untouched: nothing is removed, no status changes, no handler
or audit effect happens. -/
theorem non_literal_true_rejected (st : Store) (body : List (String × Json))
    (aid : Json) (now : String) (handlerResult : Json)
    (hid : jlookup body "action_id" = some aid) (htruthy : jtruthy aid = true)
    (hconf : jlookup body "confirmed" ≠ some (Json.bool true)) :
    confirm_pending_action st body handlerResult =
      ⟨.httpError ⟨400, "confirmation_required"⟩, st, []⟩ ∧
    cancel_pending_action st body now =
      ⟨.httpError ⟨400, "confirmation_required"⟩, st, []⟩ := by
  have hconfF : pyEq (jgetD body "confirmed" .null) (.bool true) = false := by
    rcases hcv : jlookup body "confirmed" with _ | v
    · simp [jgetD, hcv, pyEq]
    · have hne : v ≠ .bool true := fun hv => hconf (hv ▸ hcv)
      have : jgetD body "confirmed" .null = v := by simp [jgetD, hcv]
      rw [this]
      exact Bool.eq_false_iff.mpr (fun hb => hne ((pyEq_bool_true_iff v).1 hb))
  have hidD : jgetD body "action_id" .null = aid := by simp [jgetD, hid]
  constructor
  · simp only [confirm_pending_action, hidD, htruthy, hconfF, confirm_action,
      Bool.not_true, Bool.not_false, Bool.false_eq_true, if_false, if_true, ite_true, ite_false]
  · simp only [cancel_pending_action, hidD, htruthy, hconfF, cancel_action,
      Bool.not_true, Bool.not_false, Bool.false_eq_true, if_false, if_true, ite_true, ite_false]

theorem non_literal_true_rejected_witness :
    jlookup [("action_id", Json.str "a1"), ("confirmed", Json.str "yes")] "action_id" =
        some (Json.str "a1") ∧
    jtruthy (Json.str "a1") = true ∧
    jlookup [("action_id", Json.str "a1"), ("confirmed", Json.str "yes")] "confirmed" ≠
        some (Json.bool true) ∧
    (confirm_pending_action [] [("action_id", Json.str "a1"), ("confirmed", Json.str "yes")]
        Json.null = ⟨.httpError ⟨400, "confirmation_required"⟩, [], []⟩ ∧
     cancel_pending_action [] [("action_id", Json.str "a1"), ("confirmed", Json.str "yes")]
        "t0" = ⟨.httpError ⟨400, "confirmation_required"⟩, [], []⟩) :=
  ⟨by rfl, by rfl, by simp [jlookup],
   non_literal_true_rejected [] _ _ "t0" Json.null (by rfl) (by rfl) (by simp [jlookup])⟩

/-- C3: a successful `confirm(id, true)` marks the record `confirmed` and
removes it from the pending set, so every later `confirm(id, true)` or
`cancel(id, true)` on the same id fails with the `pending_action_not_found`
error; a successful `cancel(id, true)` behaves symmetrically.  These are the
only transitions: the popped record is the only thing whose status changes,
and the two terminal statuses are never re-entered. -/
theorem confirm_and_cancel_are_terminal (st : Store) (id : String) :
    (∀ a st1, confirm_action st id true = .ok (a, st1) →
      a.status = "confirmed" ∧
      storeFind st1 id = none ∧
      confirm_action st1 id true = .error ⟨404, "pending_action_not_found"⟩ ∧
      ∀ now, cancel_action st1 id true now = .error ⟨404, "pending_action_not_found"⟩) ∧
    (∀ j st1 now, cancel_action st id true now = .ok (j, st1) →
      storeFind st1 id = none ∧
      confirm_action st1 id true = .error ⟨404, "pending_action_not_found"⟩ ∧
      ∀ now2, cancel_action st1 id true now2 = .error ⟨404, "pending_action_not_found"⟩) := by
  have hnone : ∀ st2 : Store, storeFind st2 id = none →
      confirm_action st2 id true = .error ⟨404, "pending_action_not_found"⟩ ∧
      ∀ now2, cancel_action st2 id true now2 = .error ⟨404, "pending_action_not_found"⟩ := by
    intro st2 h2
    constructor
    · simp [confirm_action, storePop, h2]
    · intro now2; simp [cancel_action, storePop, h2]
  constructor
  · intro a st1 hok
    simp only [confirm_action, Bool.not_true, Bool.false_eq_true, if_false, ite_false] at hok
    rcases hpop : storePop st id with _ | ⟨a0, st2⟩ <;> rw [hpop] at hok
    · exact absurd hok (by simp)
    · have hfind : storeFind st2 id = none := by
        rcases hf : storeFind st id with _ | a1 <;> simp [storePop, hf] at hpop
        rw [← hpop.2]
        exact storeFind_remove st id
      obtain ⟨ha, hst⟩ : { a0 with status := "confirmed" } = a ∧ st2 = st1 := by
        constructor <;> [exact congrArg Prod.fst (Except.ok.inj hok);
                        exact congrArg Prod.snd (Except.ok.inj hok)]
      subst hst
      refine ⟨by rw [← ha], hfind, (hnone st2 hfind).1, (hnone st2 hfind).2⟩
  · intro j st1 now hok
    simp only [cancel_action, Bool.not_true, Bool.false_eq_true, if_false, ite_false] at hok
    rcases hpop : storePop st id with _ | ⟨a0, st2⟩ <;> rw [hpop] at hok
    · exact absurd hok (by simp)
    · have hfind : storeFind st2 id = none := by
        rcases hf : storeFind st id with _ | a1 <;> simp [storePop, hf] at hpop
        rw [← hpop.2]
        exact storeFind_remove st id
      have hst : st2 = st1 := congrArg Prod.snd (Except.ok.inj hok)
      subst hst
      exact ⟨hfind, (hnone st2 hfind).1, (hnone st2 hfind).2⟩

theorem confirm_and_cancel_are_terminal_witness :
    (confirm_action [("a1", ⟨"a1", "email.send", .obj [], "t0", "pending_confirmation"⟩)]
        "a1" true = .ok (⟨"a1", "email.send", .obj [], "t0", "confirmed"⟩, [])) ∧
    storeFind ([] : Store) "a1" = none ∧
    confirm_action ([] : Store) "a1" true = .error ⟨404, "pending_action_not_found"⟩ ∧
    cancel_action ([] : Store) "a1" true "t1" = .error ⟨404, "pending_action_not_found"⟩ := by
  have h := (confirm_and_cancel_are_terminal
    [("a1", ⟨"a1", "email.send", .obj [], "t0", "pending_confirmation"⟩)] "a1").1
    ⟨"a1", "email.send", .obj [], "t0", "confirmed"⟩ [] (by rfl)
  exact ⟨by rfl, h.2.1, h.2.2.1, h.2.2.2 "t1"⟩

/-- Insertion into the live map only ever adds the given record. -/
theorem mem_storeInsert {st : Store} {id : String} {a : PendingAction}
    {p : String × PendingAction} (hp : p ∈ storeInsert st id a) : p ∈ st ∨ p.2 = a := by
  unfold storeInsert at hp
  split at hp
  · rcases List.mem_map.1 hp with ⟨q, hq, hpq⟩
    by_cases h : q.1 = id
    · right; rw [← hpq]; simp [h]
    · left; rw [← hpq]; simpa [h] using hq
  · rcases List.mem_append.1 hp with h | h
    · exact Or.inl h
    · right; rw [List.mem_singleton.1 h]

/-- C10: every record held in the live pending map of a reachable store —
and therefore everything `_persist` writes to durable storage — has status
`pending_confirmation`; the terminal statuses are only ever assigned to a
record that has already been popped out of the map. -/
theorem live_map_only_pending (st : Store) (h : ReachableStore st) :
    (∀ p ∈ st, p.2.status = "pending_confirmation") ∧
    (∀ p ∈ persistStore st, p.2.status = "pending_confirmation") := by
  have main : ∀ p ∈ st, p.2.status = "pending_confirmation" := by
    induction h with
    | empty => intro p hp; cases hp
    | create st0 tool payload freshId now _ ih =>
      intro p hp
      rcases mem_storeInsert hp with h | h
      · exact ih p h
      · rw [h]
    | confirm st0 id a st1 _ heq ih =>
      intro p hp
      simp only [confirm_action, Bool.not_true, Bool.false_eq_true, if_false, ite_false] at heq
      rcases hpop : storePop st0 id with _ | ⟨a0, st2⟩ <;> rw [hpop] at heq
      · exact absurd heq (by simp)
      · have hst : st2 = st1 := congrArg Prod.snd (Except.ok.inj heq)
        rcases hf : storeFind st0 id with _ | a1 <;> simp [storePop, hf] at hpop
        have : p ∈ storeRemove st0 id := by rw [hpop.2, hst]; exact hp
        exact ih p (List.mem_filter.1 this).1
    | cancel st0 id j st1 now _ heq ih =>
      intro p hp
      simp only [cancel_action, Bool.not_true, Bool.false_eq_true, if_false, ite_false] at heq
      rcases hpop : storePop st0 id with _ | ⟨a0, st2⟩ <;> rw [hpop] at heq
      · exact absurd heq (by simp)
      · have hst : st2 = st1 := congrArg Prod.snd (Except.ok.inj heq)
        rcases hf : storeFind st0 id with _ | a1 <;> simp [storePop, hf] at hpop
        have : p ∈ storeRemove st0 id := by rw [hpop.2, hst]; exact hp
        exact ih p (List.mem_filter.1 this).1
    | reload st0 _ ih => exact ih
  exact ⟨main, main⟩

/-! ## Claims about the chat pipeline -/

theorem matched_tools_name_ne_empty {n : String} {x : String × String × ℚ}
    (hx : x ∈ matched_tools n) : x.1 ≠ "" := by
  simp only [matched_tools, List.mem_append, mem_if_nil, List.mem_singleton] at hx
  rcases hx with
    (((⟨-, (((⟨-, rfl⟩ | ⟨-, rfl⟩) | ⟨-, rfl⟩) | ⟨-, rfl⟩)⟩ |
       ⟨-, ((⟨-, rfl⟩ | ⟨-, rfl⟩) | ⟨-, rfl⟩)⟩) |
      ⟨-, -, rfl⟩) |
     ⟨-, (⟨-, rfl⟩ | ⟨-, rfl⟩)⟩) |
    ⟨-, ((⟨-, rfl⟩ | ⟨-, rfl⟩) | ⟨-, rfl⟩)⟩ <;> simp

/-- A tool the classifier proposes is always a nonempty identifier. -/
theorem decide_tool_some_ne_empty {m t : String}
    (h : (decide_tool m).tool = some t) : t ≠ "" := by
  simp only [decide_tool] at h
  rcases hm : matched_tools (pyLower m) with _ | ⟨a, _ | ⟨b, tl⟩⟩ <;> rw [hm] at h
  · simp at h
  · have hmem := matched_tools_name_ne_empty (n := pyLower m) (x := a) (by rw [hm]; simp)
    obtain ⟨t0, r0, c0⟩ := a
    simp only [OrchestrationDecision.tool, Option.some.injEq] at h
    simp only at hmem
    rwa [← h]
  · simp at h

/-- C4: when the classifier decision is high-confidence with tool `t` (so
the model is forced to `t`) and the model's proposed action carries a tool
value different from `t`, `plan_chat` returns status
`requires_clarification` with the fixed clarification prompt, records one
`orchestrator.mismatch` audit event capturing both proposals, leaves the
store unchanged, and neither invokes a handler nor creates a pending
action. -/
theorem forced_tool_mismatch_clarifies (ctx : PlanCtx) (st : Store)
    (payload : List (String × Json)) (message t : String) (amem : List (String × Json))
    (hmsg : require_message payload = some message)
    (hhigh : is_high_confidence (decide_tool message) = true)
    (htool : (decide_tool message).tool = some t)
    (haction : jlookup ctx.llmReply "action" = some (Json.obj amem))
    (hne : amem ≠ [])
    (hmm : pyEq (jgetD amem "tool" .null) (.str t) = false) :
    plan_chat ctx st payload =
      ⟨.ok (.obj [("status", .str "requires_clarification"),
                  ("response", .str MISMATCH_RESPONSE),
                  ("fallback", .str "tool_mismatch"),
                  ("orchestration", .obj [("decision", decisionJson (decide_tool message)),
                                          ("llm_tool", jgetD amem "tool" .null)])]),
       st,
       [.auditEvent "orchestrator.mismatch" "fallback"
         (.obj [("message", .str message),
                ("decision_tool", .str t),
                ("decision_reason", .str (decide_tool message).reason),
                ("decision_confidence", .num (decide_tool message).confidence),
                ("forced_tool", .str t),
                ("llm_tool", jgetD amem "tool" .null)])]⟩ ∧
    (∀ tool p, Effect.handlerCall tool p ∉ (plan_chat ctx st payload).effects) ∧
    (∀ tool aid, Effect.pendingCreate tool aid ∉ (plan_chat ctx st payload).effects) := by
  have hemp : t ≠ "" := decide_tool_some_ne_empty htool
  have hteq : (t == "") = false := by simp [hemp]
  have hisEmp : amem.isEmpty = false := by simp [List.isEmpty_iff, hne]
  have hactD : jgetD ctx.llmReply "action" .null = Json.obj amem := by
    simp [jgetD, haction]
  have hplan : plan_chat ctx st payload =
      ⟨.ok (.obj [("status", .str "requires_clarification"),
                  ("response", .str MISMATCH_RESPONSE),
                  ("fallback", .str "tool_mismatch"),
                  ("orchestration", .obj [("decision", decisionJson (decide_tool message)),
                                          ("llm_tool", jgetD amem "tool" .null)])]),
       st,
       [.auditEvent "orchestrator.mismatch" "fallback"
         (.obj [("message", .str message),
                ("decision_tool", .str t),
                ("decision_reason", .str (decide_tool message).reason),
                ("decision_confidence", .num (decide_tool message).confidence),
                ("forced_tool", .str t),
                ("llm_tool", jgetD amem "tool" .null)])]⟩ := by
    simp only [plan_chat, hmsg, hactD, jtruthy, hisEmp, Bool.not_false, hhigh, if_true,
      htool, hteq, hmm, Bool.and_self, ite_true]
  refine ⟨hplan, ?_, ?_⟩ <;> intro tool p <;> rw [hplan] <;> simp


theorem forced_tool_mismatch_clarifies_witness :
    require_message mismatchBody = some "enviar email para o cliente" ∧
    is_high_confidence (decide_tool "enviar email para o cliente") = true ∧
    pyEq (jgetD mismatchAction "tool" .null) (.str "email.send") = false ∧
    plan_chat mismatchCtx [] mismatchBody =
      ⟨.ok (.obj [("status", .str "requires_clarification"),
                  ("response", .str MISMATCH_RESPONSE),
                  ("fallback", .str "tool_mismatch"),
                  ("orchestration",
                    .obj [("decision", decisionJson (decide_tool "enviar email para o cliente")),
                          ("llm_tool", jgetD mismatchAction "tool" .null)])]),
       [],
       [.auditEvent "orchestrator.mismatch" "fallback"
         (.obj [("message", .str "enviar email para o cliente"),
                ("decision_tool", .str "email.send"),
                ("decision_reason", .str (decide_tool "enviar email para o cliente").reason),
                ("decision_confidence", .num (decide_tool "enviar email para o cliente").confidence),
                ("forced_tool", .str "email.send"),
                ("llm_tool", jgetD mismatchAction "tool" .null)])]⟩ :=
  ⟨rfl, by rfl, rfl,
   (forced_tool_mismatch_clarifies mismatchCtx [] mismatchBody
      "enviar email para o cliente" "email.send" mismatchAction
      rfl (by rfl) (by rfl) (by rfl) (by simp [mismatchAction]) rfl).1⟩

/-- Inversion of a successful `confirm_action`: the literal check passed,
the returned record is marked `confirmed`, and its id is gone from the
live map. -/
theorem confirm_action_ok_inv {st : Store} {id : String} {conf : Bool}
    {a : PendingAction} {st1 : Store}
    (h : confirm_action st id conf = .ok (a, st1)) :
    conf = true ∧ a.status = "confirmed" ∧ storeFind st1 id = none := by
  cases conf
  · simp [confirm_action] at h
  · refine ⟨rfl, ?_, ?_⟩ <;>
    · simp only [confirm_action, Bool.not_true, Bool.false_eq_true, if_false, ite_false] at h
      rcases hpop : storePop st id with _ | ⟨a0, st2⟩ <;> rw [hpop] at h
      · exact absurd h (by simp)
      · obtain ⟨ha, hst⟩ : { a0 with status := "confirmed" } = a ∧ st2 = st1 := by
          constructor <;> [exact congrArg Prod.fst (Except.ok.inj h);
                          exact congrArg Prod.snd (Except.ok.inj h)]
        first
        | (rw [← ha])
        | (rcases hf : storeFind st id with _ | a1 <;> simp [storePop, hf] at hpop
           rw [← hst, ← hpop.2]
           exact storeFind_remove st id)

/-- Helper: a `handlerCall` emitted by `plan_chat` always names a tool whose
dispatch-table entry has `requires_confirmation = False`. -/
theorem plan_chat_handler_only_unconfirmed (ctx : PlanCtx) (st : Store)
    (payload : List (String × Json)) (t : String) (p : Json)
    (h : Effect.handlerCall t p ∈ (plan_chat ctx st payload).effects) :
    ∃ cfg, lookupToolConfig t = some cfg ∧ cfg.requires_confirmation = false := by
  simp only [plan_chat] at h
  repeat' (split at h)
  all_goals first
    | (exfalso; simp at h; done)
    | (simp at h
       obtain ⟨rfl, -⟩ := h
       exact ⟨_, by assumption, by simp_all⟩)

/-- Helper: same statement for `execute_chat_plan`. -/
theorem execute_chat_plan_handler_only_unconfirmed (ctx : PlanCtx) (st : Store)
    (payload : List (String × Json)) (t : String) (p : Json)
    (h : Effect.handlerCall t p ∈ (execute_chat_plan ctx st payload).effects) :
    ∃ cfg, lookupToolConfig t = some cfg ∧ cfg.requires_confirmation = false := by
  simp only [execute_chat_plan] at h
  split at h
  · exact absurd h (List.not_mem_nil _)
  · rename_i amem heq
    by_cases hc0 : pyEq (jgetD amem "tool" Json.null) (Json.str "email.search") = true
    · rw [if_pos hc0] at h
      obtain ⟨ht, hp⟩ := Effect.handlerCall.inj (List.mem_singleton.1 h)
      subst ht
      exact ⟨_, rfl, rfl⟩
    · rw [if_neg hc0] at h
      by_cases hc1 : pyEq (jgetD amem "tool" Json.null) (Json.str "email.read") = true
      · rw [if_pos hc1] at h
        obtain ⟨ht, hp⟩ := Effect.handlerCall.inj (List.mem_singleton.1 h)
        subst ht
        exact ⟨_, rfl, rfl⟩
      · rw [if_neg hc1] at h
        by_cases hc2 : pyEq (jgetD amem "tool" Json.null) (Json.str "email.draft") = true
        · rw [if_pos hc2] at h
          obtain ⟨ht, hp⟩ := Effect.handlerCall.inj (List.mem_singleton.1 h)
          subst ht
          exact ⟨_, rfl, rfl⟩
        · rw [if_neg hc2] at h
          by_cases hc3 : pyEq (jgetD amem "tool" Json.null) (Json.str "email.send") = true
          · rw [if_pos hc3] at h
            exact absurd (List.mem_singleton.1 h) (fun hx => by cases hx)
          · rw [if_neg hc3] at h
            by_cases hc4 : pyEq (jgetD amem "tool" Json.null) (Json.str "calendar.list_events") = true
            · rw [if_pos hc4] at h
              obtain ⟨ht, hp⟩ := Effect.handlerCall.inj (List.mem_singleton.1 h)
              subst ht
              exact ⟨_, rfl, rfl⟩
            · rw [if_neg hc4] at h
              by_cases hc5 : pyEq (jgetD amem "tool" Json.null) (Json.str "calendar.create_event") = true
              · rw [if_pos hc5] at h
                exact absurd (List.mem_singleton.1 h) (fun hx => by cases hx)
              · rw [if_neg hc5] at h
                by_cases hc6 : pyEq (jgetD amem "tool" Json.null) (Json.str "calendar.modify_event") = true
                · rw [if_pos hc6] at h
                  exact absurd (List.mem_singleton.1 h) (fun hx => by cases hx)
                · rw [if_neg hc6] at h
                  by_cases hc7 : pyEq (jgetD amem "tool" Json.null) (Json.str "notes.create") = true
                  · rw [if_pos hc7] at h
                    exact absurd (List.mem_singleton.1 h) (fun hx => by cases hx)
                  · rw [if_neg hc7] at h
                    by_cases hc8 : pyEq (jgetD amem "tool" Json.null) (Json.str "tasks.create") = true
                    · rw [if_pos hc8] at h
                      exact absurd (List.mem_singleton.1 h) (fun hx => by cases hx)
                    · rw [if_neg hc8] at h
                      by_cases hc9 : pyEq (jgetD amem "tool" Json.null) (Json.str "tasks.list") = true
                      · rw [if_pos hc9] at h
                        obtain ⟨ht, hp⟩ := Effect.handlerCall.inj (List.mem_singleton.1 h)
                        subst ht
                        exact ⟨_, rfl, rfl⟩
                      · rw [if_neg hc9] at h
                        by_cases hc10 : pyEq (jgetD amem "tool" Json.null) (Json.str "spotify.play") = true
                        · rw [if_pos hc10] at h
                          obtain ⟨ht, hp⟩ := Effect.handlerCall.inj (List.mem_singleton.1 h)
                          subst ht
                          exact ⟨_, rfl, rfl⟩
                        · rw [if_neg hc10] at h
                          by_cases hc11 : pyEq (jgetD amem "tool" Json.null) (Json.str "spotify.pause") = true
                          · rw [if_pos hc11] at h
                            obtain ⟨ht, hp⟩ := Effect.handlerCall.inj (List.mem_singleton.1 h)
                            subst ht
                            exact ⟨_, rfl, rfl⟩
                          · rw [if_neg hc11] at h
                            by_cases hc12 : pyEq (jgetD amem "tool" Json.null) (Json.str "spotify.skip") = true
                            · rw [if_pos hc12] at h
                              obtain ⟨ht, hp⟩ := Effect.handlerCall.inj (List.mem_singleton.1 h)
                              subst ht
                              exact ⟨_, rfl, rfl⟩
                            · rw [if_neg hc12] at h
                              exact absurd h (List.not_mem_nil _)
  · exact absurd h (List.not_mem_nil _)

/-- The effect trace of `execute_action` is a single call of the confirmed
action's own handler (or nothing, when the tool is not implemented). -/
theorem execute_action_effects (action : PendingAction) (hr : Json) :
    (execute_action action hr).2 = [] ∨
    (execute_action action hr).2 = [Effect.handlerCall action.tool action.payload] := by
  simp only [execute_action]
  repeat' split
  all_goals simp

/-- C1: no execution path hands a confirmation-gated tool to a
side-effecting handler without a confirmed pending action.  Concretely:
(1) every tool of the confirmation set is marked
`requires_confirmation = True` in the dispatch table; (2) `plan_chat`,
(3) `execute_chat_plan` and (4) `handle_chat` never emit a handler call for
any of them (they answer `pending_confirmation` instead); and (5) whenever
the `/confirm` route invokes a handler, `confirm_action` has first
succeeded on the supplied id with the literal `confirmed = True`, the
executed record is in status `confirmed`, its tool is the handler's tool,
and the id has been removed from the pending set. -/
theorem write_tools_gated_by_confirmation :
    (∀ t ∈ CONFIRMATION_REQUIRED_TOOLS,
      (lookupToolConfig t).map (fun cfg => cfg.requires_confirmation) = some true) ∧
    (∀ ctx st payload t p, t ∈ CONFIRMATION_REQUIRED_TOOLS →
      Effect.handlerCall t p ∉ (plan_chat ctx st payload).effects) ∧
    (∀ ctx st payload t p, t ∈ CONFIRMATION_REQUIRED_TOOLS →
      Effect.handlerCall t p ∉ (execute_chat_plan ctx st payload).effects) ∧
    (∀ ctx st payload t p, t ∈ CONFIRMATION_REQUIRED_TOOLS →
      Effect.handlerCall t p ∉ (handle_chat ctx st payload).effects) ∧
    (∀ st body handlerResult t p,
      Effect.handlerCall t p ∈ (confirm_pending_action st body handlerResult).effects →
      pyEq (jgetD body "confirmed" .null) (.bool true) = true ∧
      ∃ act st1,
        confirm_action st (pyStr (jgetD body "action_id" .null)) true = .ok (act, st1) ∧
        act.tool = t ∧ act.status = "confirmed" ∧
        storeFind st1 (pyStr (jgetD body "action_id" .null)) = none ∧
        (confirm_pending_action st body handlerResult).store = st1) := by
  have htable : ∀ t ∈ CONFIRMATION_REQUIRED_TOOLS,
      (lookupToolConfig t).map (fun cfg => cfg.requires_confirmation) = some true := by
    decide
  have hconf_notfalse : ∀ t, t ∈ CONFIRMATION_REQUIRED_TOOLS →
      ∀ cfg, lookupToolConfig t = some cfg → cfg.requires_confirmation = true := by
    intro t ht cfg hcfg
    have := htable t ht
    rw [hcfg] at this
    simpa using this
  have hplan : ∀ ctx st payload t p, t ∈ CONFIRMATION_REQUIRED_TOOLS →
      Effect.handlerCall t p ∉ (plan_chat ctx st payload).effects := by
    intro ctx st payload t p ht h
    obtain ⟨cfg, hcfg, hfalse⟩ := plan_chat_handler_only_unconfirmed ctx st payload t p h
    rw [hconf_notfalse t ht cfg hcfg] at hfalse
    cases hfalse
  have hexec : ∀ ctx st payload t p, t ∈ CONFIRMATION_REQUIRED_TOOLS →
      Effect.handlerCall t p ∉ (execute_chat_plan ctx st payload).effects := by
    intro ctx st payload t p ht h
    obtain ⟨cfg, hcfg, hfalse⟩ := execute_chat_plan_handler_only_unconfirmed ctx st payload t p h
    rw [hconf_notfalse t ht cfg hcfg] at hfalse
    cases hfalse
  refine ⟨htable, hplan, hexec, ?_, ?_⟩
  · intro ctx st payload t p ht h
    simp only [handle_chat] at h
    split at h
    · rcases List.mem_append.1 (by simpa using h) with h1 | h1
      · exact hplan ctx st payload t p ht h1
      · exact hexec _ _ _ t p ht h1
    · exact hplan ctx st payload t p ht (by simpa using h)
    · exact hplan ctx st payload t p ht (by simpa using h)
  · intro st body handlerResult t p h
    simp only [confirm_pending_action] at h
    split at h
    · simp at h
    · rename_i hid
      split at h
      · simp at h
      · rename_i action st1 heq
        obtain ⟨hconfT, hstatus, hgone⟩ := confirm_action_ok_inv heq
        rw [hconfT] at heq
        have htool : action.tool = t := by
          rcases execute_action_effects action handlerResult with hE | hE
          · exfalso
            split at h <;> rw [hE] at h <;> simp at h
          · split at h <;> rw [hE] at h <;> simp at h
            · exact h.1.symm
            · exact h.1.symm
        refine ⟨hconfT, action, st1, heq, htool, hstatus, hgone, ?_⟩
        simp only [confirm_pending_action]
        rw [if_neg hid, hconfT, heq]
        split
        · rename_i e hcontra
          exact absurd hcontra (by simp)
        · rename_i a1 s1 hok
          obtain ⟨rfl, rfl⟩ : a1 = action ∧ s1 = st1 := by
            have hinj := Except.ok.inj hok
            exact ⟨(congrArg Prod.fst hinj).symm, (congrArg Prod.snd hinj).symm⟩
          split <;> rfl


theorem write_tools_gated_by_confirmation_witness :
    ("email.send" ∈ CONFIRMATION_REQUIRED_TOOLS) ∧
    Effect.handlerCall "email.send" (.obj []) ∉ (plan_chat mismatchCtx [] mismatchBody).effects ∧
    (pyEq (jgetD gatedBody "confirmed" .null) (.bool true) = true ∧
     ∃ act st1,
       confirm_action gatedStore (pyStr (jgetD gatedBody "action_id" .null)) true =
         .ok (act, st1) ∧
       act.tool = "email.send" ∧ act.status = "confirmed" ∧
       storeFind st1 (pyStr (jgetD gatedBody "action_id" .null)) = none ∧
       (confirm_pending_action gatedStore gatedBody .null).store = st1) :=
  ⟨by decide,
   write_tools_gated_by_confirmation.2.1 mismatchCtx [] mismatchBody "email.send" (.obj [])
     (by decide),
   write_tools_gated_by_confirmation.2.2.2.2 gatedStore gatedBody .null "email.send" (.obj [])
     (by
       have heffs : (confirm_pending_action gatedStore gatedBody .null).effects =
           [Effect.handlerCall "email.send" (.obj []),
            Effect.auditEvent "email.send" "confirmed" (.obj [])] := rfl
       rw [heffs]
       exact List.mem_cons_self _ _)⟩

theorem live_map_only_pending_witness :
    (∀ p ∈ (storeCreate [] "email.send" (.obj []) "id-1" "t0").2,
        p.2.status = "pending_confirmation") ∧
    (∀ p ∈ persistStore (storeCreate [] "email.send" (.obj []) "id-1" "t0").2,
        p.2.status = "pending_confirmation") :=
  live_map_only_pending _
    (ReachableStore.create [] "email.send" (.obj []) "id-1" "t0" ReachableStore.empty)

/-! ## Claims about the model request pipeline -/

/-- C6: the retry loop of `generate_response` retries only on HTTP 429 or
5xx and only while the attempt budget lasts, sleeping `backoff_ms * 2 ^
attempt` between attempts; any other HTTP status aborts immediately with
one error telemetry record, as does a transport failure; and three
consecutive 503 responses under a retry budget of 2 exhaust the budget and
surface the 502 `llm_request_failed` error with exactly one error telemetry
record — not one per attempt — after sleeping `b * 1` and `b * 2`
milliseconds. -/
theorem retry_only_transient_with_backoff :
    (∀ b : Nat, 0 < b →
      generate_response 2 b [.httpStatus 503, .httpStatus 503, .httpStatus 503] =
        ⟨[⟨"error", some "HTTP 503"⟩], [b * 2 ^ 0, b * 2 ^ 1],
         .raised ⟨502, "llm_request_failed"⟩⟩) ∧
    (∀ retryCount b attempt code rest, ¬(code = 429 ∨ 500 ≤ code) →
      retryLoop retryCount b attempt (.httpStatus code :: rest) =
        ⟨[⟨"error", some ("HTTP " ++ toString code)⟩], [], .error ()⟩) ∧
    (∀ retryCount b attempt code rest, attempt < retryCount → (code = 429 ∨ 500 ≤ code) →
      retryLoop retryCount b attempt (.httpStatus code :: rest) =
        ⟨(retryLoop retryCount b (attempt + 1) rest).events,
         (if 0 < b * 2 ^ attempt then [b * 2 ^ attempt] else []) ++
           (retryLoop retryCount b (attempt + 1) rest).sleeps,
         (retryLoop retryCount b (attempt + 1) rest).result⟩) ∧
    (∀ retryCount b attempt rest,
      retryLoop retryCount b attempt (.transportFail :: rest) =
        ⟨[⟨"error", some "transport"⟩], [], .error ()⟩) := by
  refine ⟨?_, ?_, ?_, ?_⟩
  · intro b hb
    simp only [generate_response, retryLoop, should_retry_http_error]
    norm_num [hb]
    rfl
  · intro retryCount b attempt code rest hcode
    have hf : should_retry_http_error code = false := by
      push_neg at hcode
      simp [should_retry_http_error, hcode.1, Nat.not_le.mpr hcode.2]
    simp [retryLoop, hf]
  · intro retryCount b attempt code rest hlt hcode
    have hTrue : should_retry_http_error code = true := by
      simp only [should_retry_http_error]
      rcases hcode with h | h <;> simp [h]
    simp [retryLoop, hTrue, hlt]
  · intro retryCount b attempt rest
    rfl

theorem retry_only_transient_with_backoff_witness :
    (0 < 250 ∧
     generate_response 2 250 [.httpStatus 503, .httpStatus 503, .httpStatus 503] =
       ⟨[⟨"error", some "HTTP 503"⟩], [250 * 2 ^ 0, 250 * 2 ^ 1],
        .raised ⟨502, "llm_request_failed"⟩⟩) ∧
    (¬((400 : Nat) = 429 ∨ 500 ≤ 400) ∧
     retryLoop 2 250 0 [.httpStatus 400] =
       ⟨[⟨"error", some ("HTTP " ++ toString 400)⟩], [], .error ()⟩) ∧
    ((0 : Nat) < 2 ∧ ((503 : Nat) = 429 ∨ 500 ≤ 503) ∧
     retryLoop 2 250 0 [.httpStatus 503] =
       ⟨(retryLoop 2 250 1 []).events,
        (if 0 < 250 * 2 ^ 0 then [250 * 2 ^ 0] else []) ++ (retryLoop 2 250 1 []).sleeps,
        (retryLoop 2 250 1 []).result⟩) :=
  ⟨⟨by decide, retry_only_transient_with_backoff.1 250 (by decide)⟩,
   ⟨by decide, retry_only_transient_with_backoff.2.1 2 250 0 400 [] (by decide)⟩,
   ⟨by decide, by decide,
    retry_only_transient_with_backoff.2.2.1 2 250 0 503 [] (by decide) (by decide)⟩⟩

/-! ## Claims about the response decoder -/


/-- `json.loads` fails whenever the first non-whitespace character cannot
begin a JSON value. -/
theorem loads_none_of_bad_start {s : String} {c : Char} {rest : List Char}
    (hdata : s.data.dropWhile isJsonWs = c :: rest)
    (hc : jsonStartChar c = false) : loads s = none := by
  simp only [jsonStartChar, Bool.or_eq_false_iff, decide_eq_false_iff_not] at hc
  obtain ⟨⟨⟨⟨⟨⟨⟨⟨⟨h1, h2⟩, h3⟩, h4⟩, h5⟩, h6⟩, h7⟩, h8⟩, h9⟩, h10⟩ := hc
  have hval : parseVal (s.length + 1) s.data = none := by
    simp only [parseVal, hdata]
    simp [h1, h2, h3, h4, h5, h6, h7, h8, h9, h10]
  unfold loads
  rw [hval]

theorem isJsonWs_false_of_not_pySpace {c : Char} (h : isPySpace c = false) :
    isJsonWs c = false := by
  cases hc : isJsonWs c
  · rfl
  · exfalso
    simp only [isJsonWs, Bool.or_eq_true, decide_eq_true_eq] at hc
    rcases hc with ((rfl | rfl) | rfl) | rfl <;> exact absurd h (by decide)

theorem dropWhile_eq_self_of_head {p : Char → Bool} {c : Char} {rest : List Char}
    (h : p c = false) : (c :: rest).dropWhile p = c :: rest := by
  simp [List.dropWhile_cons, h]

/-- `strip()` is the identity on a text with non-whitespace first and last
characters. -/
theorem pyStrip_eq_self {s : String} {c1 c2 : Char} {mid : List Char}
    (hdata : s.data = c1 :: (mid ++ [c2]))
    (h1 : isPySpace c1 = false) (h2 : isPySpace c2 = false) : pyStrip s = s := by
  have hgoal : ((s.data.dropWhile isPySpace).reverse.dropWhile isPySpace).reverse = s.data := by
    rw [hdata, dropWhile_eq_self_of_head h1]
    have hrev : (c1 :: (mid ++ [c2])).reverse = c2 :: (mid.reverse ++ [c1]) := by simp
    rw [hrev, dropWhile_eq_self_of_head h2, ← hrev, List.reverse_reverse]
  show String.mk _ = s
  rw [hgoal]

theorem findIdx?_append_cons {c : Char} :
    ∀ (l1 l2 : List Char) (i : Nat), c ∉ l1 →
      List.findIdx? (fun x => x = c) (l1 ++ c :: l2) i = some (i + l1.length) := by
  intro l1
  induction l1 with
  | nil => intro l2 i h; simp [List.findIdx?_cons]
  | cons d l1' ih =>
    intro l2 i h
    have hd : ¬(d = c) := fun hx => h (hx ▸ List.mem_cons_self _ _)
    have h' : c ∉ l1' := fun hx => h (List.mem_cons_of_mem _ hx)
    rw [List.cons_append, List.findIdx?_cons, if_neg (by simp [hd]), ih l2 (i + 1) h']
    congr 1
    simp only [List.length_cons]
    omega

theorem findIdx?_none_of_not_mem {c : Char} :
    ∀ (l : List Char) (i : Nat), c ∉ l →
      List.findIdx? (fun x => x = c) l i = none := by
  intro l
  induction l with
  | nil => intro i h; rfl
  | cons d l' ih =>
    intro i h
    have hd : ¬(d = c) := fun hx => h (hx ▸ List.mem_cons_self _ _)
    have h' : c ∉ l' := fun hx => h (List.mem_cons_of_mem _ hx)
    rw [List.findIdx?_cons, if_neg (by simp [hd])]
    exact ih (i + 1) h'

theorem isPrefixOf_append_self (l t : List Char) : l.isPrefixOf (l ++ t) = true := by
  induction l with
  | nil => simp [List.isPrefixOf]
  | cons c l' ih => simp [List.isPrefixOf, ih]

theorem lastCloseIdx_none {l : List Char} (h : '}' ∉ l) :
    ∀ i, lastCloseIdx l i = none := by
  induction l with
  | nil => intro i; rfl
  | cons c rest ih =>
    intro i
    have hc : ¬(c = '}') := fun hx => h (hx ▸ List.mem_cons_self _ _)
    have h' : '}' ∉ rest := fun hx => h (List.mem_cons_of_mem _ hx)
    simp [lastCloseIdx, ih h', hc]

/-- The greedy group choice: the match ends at the LAST closing brace that
is followed by whitespace and a closing fence. -/
theorem lastCloseIdx_append {tail0 : List Char}
    (htail : ∀ i, lastCloseIdx tail0 i = none) (hws : wsFence tail0 = true) :
    ∀ (pre : List Char) (i : Nat),
      lastCloseIdx (pre ++ '}' :: tail0) i = some (i + pre.length) := by
  intro pre
  induction pre with
  | nil =>
    intro i
    simp [lastCloseIdx, htail, hws]
  | cons c rest ih =>
    intro i
    rw [List.cons_append]
    simp only [lastCloseIdx, ih (i + 1)]
    congr 1
    simp only [List.length_cons]
    omega

/-- The group the regex takes on a well-fenced object body: from the
opening brace to the LAST closing brace followed by whitespace and a
closing fence. -/
theorem matchFenceBody_fenced {mid : List Char} :
    matchFenceBody (('{' :: (mid ++ ['}'])) ++ ('\n' :: fenceTicks)) =
      some ('{' :: (mid ++ ['}'])) := by
  have htail : ∀ i, lastCloseIdx ('\n' :: fenceTicks) i = none :=
    lastCloseIdx_none (by decide)
  have hws : wsFence ('\n' :: fenceTicks) = true := by decide
  have hclose : lastCloseIdx ('{' :: ((mid ++ ['}']) ++ ('\n' :: fenceTicks))) 0
      = some (0 + ('{' :: mid).length) := by
    have h2 : '{' :: ((mid ++ ['}']) ++ ('\n' :: fenceTicks))
        = ('{' :: mid) ++ ('}' :: ('\n' :: fenceTicks)) := by simp
    rw [h2]
    exact lastCloseIdx_append htail hws ('{' :: mid) 0
  have htake : ('{' :: ((mid ++ ['}']) ++ ('\n' :: fenceTicks))).take
        ((0 + ('{' :: mid).length) + 1) = '{' :: (mid ++ ['}']) := by
    have h3 : '{' :: ((mid ++ ['}']) ++ ('\n' :: fenceTicks))
        = ('{' :: (mid ++ ['}'])) ++ ('\n' :: fenceTicks) := by simp
    rw [h3]
    apply List.take_left'
    simp
  rw [List.cons_append]
  simp only [matchFenceBody, hclose, Option.map_some', htake]

/-- Matching the whole fence pattern anchored at a `​```json` opener. -/
theorem matchFenceAt_tagged {X g : List Char}
    (h : matchFenceBody (X.dropWhile isPySpace) = some g) :
    matchFenceAt ("```json\n".data ++ X) = some g := by
  have h1 : List.isPrefixOf fenceTicks ("```json\n".data ++ X) = true := by
    have he : "```json\n".data ++ X = fenceTicks ++ ("json\n".data ++ X) := rfl
    rw [he]
    exact isPrefixOf_append_self _ _
  have h2 : ("```json\n".data ++ X).drop 3 = "json\n".data ++ X := rfl
  have h3 : List.isPrefixOf ['j', 's', 'o', 'n'] ("json\n".data ++ X) = true := by
    have he : "json\n".data ++ X = ['j', 's', 'o', 'n'] ++ ('\n' :: X) := rfl
    rw [he]
    exact isPrefixOf_append_self _ _
  have h4 : (("json\n".data ++ X).drop 4).dropWhile isPySpace = X.dropWhile isPySpace := by
    have he : ("json\n".data ++ X).drop 4 = '\n' :: X := rfl
    rw [he, List.dropWhile_cons, if_pos (by decide)]
  simp only [matchFenceAt, h1, if_true, h2, h3, h4, h]

/-- `re.search` on the fenced text finds the match at the very start. -/
theorem reSearchFence_tagged {X g : List Char}
    (h : matchFenceBody (X.dropWhile isPySpace) = some g) :
    reSearchFence ("```json\n".data ++ X) = some g := by
  have hstep : reSearchFence ("```json\n".data ++ X) =
      match matchFenceAt ("```json\n".data ++ X) with
      | some g0 => some g0
      | none => reSearchFence ("``json\n".data ++ X) := rfl
  rw [hstep, matchFenceAt_tagged h]

/-- Without a backtick in sight the fence pattern cannot match. -/
theorem reSearchFence_none {cs : List Char} (h : btChar ∉ cs) :
    reSearchFence cs = none := by
  induction cs with
  | nil => rfl
  | cons c rest ih =>
    have hc : ¬(btChar = c) := fun hx => h (hx ▸ List.mem_cons_self _ _)
    have h' : btChar ∉ rest := fun hx => h (List.mem_cons_of_mem _ hx)
    have hfail : matchFenceAt (c :: rest) = none := by
      have hpre : List.isPrefixOf fenceTicks (c :: rest) = false := by
        have hf : fenceTicks = [btChar, btChar, btChar] := by decide
        rw [hf]
        simp [List.isPrefixOf, hc]
      simp [matchFenceAt, hpre]
    simp [reSearchFence, hfail, ih h']

theorem decode_str (x : String) : decode_llm_json (.str x) = decodeStages (pyStrip x) := rfl

/-- `strip()` is the identity whenever the first and last characters are
not whitespace. -/
theorem pyStrip_of_ends {s : String} {c1 c2 : Char}
    (hh : s.data.head? = some c1) (hl : s.data.getLast? = some c2)
    (h1 : isPySpace c1 = false) (h2 : isPySpace c2 = false) : pyStrip s = s := by
  have hgoal : ((s.data.dropWhile isPySpace).reverse.dropWhile isPySpace).reverse = s.data := by
    rcases hd : s.data with _ | ⟨d, rest⟩
    · rfl
    · have hdc : d = c1 := by rw [hd] at hh; simpa using hh
      subst hdc
      rw [dropWhile_eq_self_of_head h1]
      rcases hr : (d :: rest).reverse with _ | ⟨e, rrest⟩
      · exact absurd hr (by simp)
      · have he : e = c2 := by
          have hrev : (d :: rest).reverse.head? = some c2 := by
            rw [List.head?_reverse, ← hd]
            exact hl
          rw [hr] at hrev
          simpa using hrev
        subst he
        rw [dropWhile_eq_self_of_head h2, ← hr, List.reverse_reverse]
  show String.mk _ = s
  rw [hgoal]

/-- C7: the decoder applies the three stages in order with the first
success winning and returns the extracted object.  For any JSON object
text `s` (brace-delimited, backtick-free) and any prose prefix `p`
(non-empty, not opening like JSON, free of braces and backticks):
(1) the plain text decodes to the object directly; (2) the markdown-fenced
text fails the direct parse and decodes to the same object via the fenced
code block stage; (3) the prose-prefixed text fails the first two stages
and decodes to the same object via the first-brace-to-last-brace
substring; (4) a list of parts whose textual parts join to `s` decodes
exactly as the plain string does; (5) any stage-one parse that yields a
non-object value is rejected with `JSONDecodeError`; and (6) when the
text has no parse, no fence and no brace, the decoder fails with
`JSONDecodeError`. -/
theorem decode_three_stages
    (m : List (String × Json)) (mid : List Char) (s : String)
    (hdata : s.data = '{' :: (mid ++ ['}']))
    (hparse : loads s = some (.obj m))
    (hstick : btChar ∉ s.data)
    (p : String) (c : Char) (prest : List Char)
    (hp : p.data = c :: prest)
    (hcws : isPySpace c = false)
    (hcstart : jsonStartChar c = false)
    (hpopen : '{' ∉ p.data) (hptick : btChar ∉ p.data) :
    decode_llm_json (.str s) = .ok m ∧
    decode_llm_json (.str ("```json\n" ++ s ++ "\n```")) = .ok m ∧
    decode_llm_json (.str (p ++ s)) = .ok m ∧
    (∀ (parts : List Json) (texts : List String),
        parts.mapM partText = some texts → String.join texts = s →
        decode_llm_json (.arr parts) = decode_llm_json (.str s)) ∧
    (∀ (s2 : String) (v : Json), loads (pyStrip s2) = some v →
        (∀ mm, v ≠ Json.obj mm) →
        decode_llm_json (.str s2) = DecodeOut.decodeErr) ∧
    (∀ (s2 : String), loads (pyStrip s2) = none →
        btChar ∉ (pyStrip s2).data → '{' ∉ (pyStrip s2).data →
        decode_llm_json (.str s2) = DecodeOut.decodeErr) := by
  have hmkS : String.mk s.data = s := by cases s; rfl
  -- Stage 1 on the plain object text succeeds.
  have hA : decode_llm_json (.str s) = .ok m := by
    rw [decode_str, pyStrip_eq_self hdata (by decide) (by decide)]
    simp only [decodeStages, hparse]
  -- The fenced text: stage 1 fails, stage 2 extracts the object.
  have hnl : "\n```".data = '\n' :: fenceTicks := by decide
  have hft : fenceTicks = [btChar, btChar, btChar] := by decide
  have hFdata : ("```json\n" ++ s ++ "\n```").data
      = "```json\n".data ++ (s.data ++ "\n```".data) := by
    rw [String.data_append, String.data_append, List.append_assoc]
  have hFhead : ("```json\n" ++ s ++ "\n```").data.head? = some btChar := by
    rw [hFdata]; rfl
  have hFlast : ("```json\n" ++ s ++ "\n```").data.getLast? = some btChar := by
    rw [hFdata, hnl, hft]
    have hsplit : "```json\n".data ++ (s.data ++ ('\n' :: [btChar, btChar, btChar]))
        = ("```json\n".data ++ (s.data ++ ['\n', btChar, btChar])) ++ [btChar] := by
      simp
    rw [hsplit, List.getLast?_concat]
  have hstripF : pyStrip ("```json\n" ++ s ++ "\n```") = "```json\n" ++ s ++ "\n```" :=
    pyStrip_of_ends hFhead hFlast (by decide) (by decide)
  have hcons : "```json\n".data ++ (s.data ++ "\n```".data)
      = btChar :: ("``json\n".data ++ (s.data ++ "\n```".data)) := rfl
  have hFstart : ("```json\n" ++ s ++ "\n```").data.dropWhile isJsonWs
      = btChar :: ("``json\n".data ++ (s.data ++ "\n```".data)) := by
    rw [hFdata, hcons]
    exact dropWhile_eq_self_of_head (by decide)
  have hFloads : loads ("```json\n" ++ s ++ "\n```") = none :=
    loads_none_of_bad_start hFstart (by decide)
  have hXdrop : (s.data ++ "\n```".data).dropWhile isPySpace = s.data ++ "\n```".data := by
    rw [hdata, List.cons_append]
    exact dropWhile_eq_self_of_head (by decide)
  have hbody : matchFenceBody ((s.data ++ "\n```".data).dropWhile isPySpace) = some s.data := by
    rw [hXdrop, hdata, hnl]
    exact matchFenceBody_fenced
  have hsearch : reSearchFence (("```json\n" ++ s ++ "\n```").data) = some s.data := by
    rw [hFdata]
    exact reSearchFence_tagged hbody
  have hB : decode_llm_json (.str ("```json\n" ++ s ++ "\n```")) = .ok m := by
    rw [decode_str, hstripF]
    simp only [decodeStages, hFloads, hsearch, hmkS, hparse]
  -- The prose-prefixed text: stages 1 and 2 fail, stage 3 extracts the object.
  have hPdata : (p ++ s).data = p.data ++ s.data := String.data_append p s
  have hPhead : (p ++ s).data.head? = some c := by rw [hPdata, hp]; rfl
  have hPlast : (p ++ s).data.getLast? = some '}' := by
    rw [hPdata, hdata]
    have hsplit : p.data ++ ('{' :: (mid ++ ['}'])) = (p.data ++ ('{' :: mid)) ++ ['}'] := by
      simp
    rw [hsplit, List.getLast?_concat]
  have hstripP : pyStrip (p ++ s) = p ++ s :=
    pyStrip_of_ends hPhead hPlast hcws (by decide)
  have hPstart : (p ++ s).data.dropWhile isJsonWs = c :: (prest ++ s.data) := by
    rw [hPdata, hp, List.cons_append]
    exact dropWhile_eq_self_of_head (isJsonWs_false_of_not_pySpace hcws)
  have hPloads : loads (p ++ s) = none := loads_none_of_bad_start hPstart hcstart
  have hPtick : btChar ∉ (p ++ s).data := by
    rw [hPdata]
    intro hmem
    rcases List.mem_append.1 hmem with hmem | hmem
    · exact hptick hmem
    · exact hstick hmem
  have hPsearch : reSearchFence ((p ++ s).data) = none := reSearchFence_none hPtick
  have hPfind : pyFind ((p ++ s).data) '{' = (p.data.length : Int) := by
    rw [hPdata, hdata]
    unfold pyFind
    rw [findIdx?_append_cons p.data (mid ++ ['}']) 0 hpopen]
    simp
  have hPrfind : pyRFind ((p ++ s).data) '}' = (((p ++ s).data.length - 1 : Nat) : Int) := by
    have hPlast2 : ((p ++ s).data).reverse.head? = some '}' := by
      rw [List.head?_reverse]; exact hPlast
    unfold pyRFind
    rcases hr : ((p ++ s).data).reverse with _ | ⟨e, tl⟩
    · rw [hr] at hPlast2; simp at hPlast2
    · have he : e = '}' := by rw [hr] at hPlast2; simpa using hPlast2
      subst he
      rw [List.findIdx?_cons, if_pos (by decide)]
      simp
  have hlenS : s.data.length = mid.length + 2 := by
    rw [hdata]
    simp only [List.length_cons, List.length_append, List.length_singleton,
      List.length_nil]
  have hlenP : (p ++ s).data.length = p.data.length + (mid.length + 2) := by
    rw [hPdata]
    simp only [List.length_append]
    omega
  have hcond : ¬((p.data.length : Int) < 0 ∨
      (((p ++ s).data.length - 1 : Nat) : Int) < 0 ∨
      (p.data.length : Int) ≥ (((p ++ s).data.length - 1 : Nat) : Int)) := by
    omega
  have htake : ((p ++ s).data.take (((p ++ s).data.length - 1) + 1)) = (p ++ s).data := by
    have h1 : (p ++ s).data.length - 1 + 1 = (p ++ s).data.length := by omega
    rw [h1, List.take_length]
  have hdrop : ((p ++ s).data).drop p.data.length = s.data := by
    rw [hPdata]
    exact List.drop_left _ _
  have hC : decode_llm_json (.str (p ++ s)) = .ok m := by
    rw [decode_str, hstripP]
    simp only [decodeStages, hPloads, hPsearch, hPfind, hPrfind]
    rw [if_neg hcond]
    simp only [Int.toNat_natCast]
    rw [htake, hdrop, hmkS]
    simp only [hparse]
  -- A list of parts joining to `s` decodes exactly as the plain string.
  have hD : ∀ (parts : List Json) (texts : List String),
      parts.mapM partText = some texts → String.join texts = s →
      decode_llm_json (.arr parts) = decode_llm_json (.str s) := by
    intro parts texts hmap hjoin
    simp only [decode_llm_json, hmap, hjoin, pyStr]
  -- Stage 1 rejects any non-object value with JSONDecodeError.
  have hE : ∀ (s2 : String) (v : Json), loads (pyStrip s2) = some v →
      (∀ mm, v ≠ Json.obj mm) →
      decode_llm_json (.str s2) = DecodeOut.decodeErr := by
    intro s2 v hl hno
    rw [decode_str]
    cases v with
    | obj mm => exact absurd rfl (hno mm)
    | null => simp only [decodeStages, hl]
    | bool b => simp only [decodeStages, hl]
    | num q => simp only [decodeStages, hl]
    | str st => simp only [decodeStages, hl]
    | arr items => simp only [decodeStages, hl]
  -- With no parse, no fence and no brace, the decoder fails.
  have hFin : ∀ (s2 : String), loads (pyStrip s2) = none →
      btChar ∉ (pyStrip s2).data → '{' ∉ (pyStrip s2).data →
      decode_llm_json (.str s2) = DecodeOut.decodeErr := by
    intro s2 hl ht hb
    rw [decode_str]
    have hfind : pyFind (pyStrip s2).data '{' = -1 := by
      unfold pyFind
      rw [findIdx?_none_of_not_mem _ 0 hb]
    simp only [decodeStages, hl, reSearchFence_none ht, hfind]
    rw [if_pos (Or.inl (by norm_num))]
  exact ⟨hA, hB, hC, hD, hE, hFin⟩


theorem decode_three_stages_witness :
    (wS.data = '{' :: (wMid ++ ['}'])) ∧
    loads wS = some (Json.obj wM) ∧
    btChar ∉ wS.data ∧
    wP.data = 'A' :: wPrest ∧
    isPySpace 'A' = false ∧
    jsonStartChar 'A' = false ∧
    '{' ∉ wP.data ∧ btChar ∉ wP.data ∧
    (decode_llm_json (.str wS) = .ok wM ∧
     decode_llm_json (.str ("```json\n" ++ wS ++ "\n```")) = .ok wM ∧
     decode_llm_json (.str (wP ++ wS)) = .ok wM ∧
     (∀ (parts : List Json) (texts : List String),
         parts.mapM partText = some texts → String.join texts = wS →
         decode_llm_json (.arr parts) = decode_llm_json (.str wS)) ∧
     (∀ (s2 : String) (v : Json), loads (pyStrip s2) = some v →
         (∀ mm, v ≠ Json.obj mm) →
         decode_llm_json (.str s2) = DecodeOut.decodeErr) ∧
     (∀ (s2 : String), loads (pyStrip s2) = none →
         btChar ∉ (pyStrip s2).data → '{' ∉ (pyStrip s2).data →
         decode_llm_json (.str s2) = DecodeOut.decodeErr)) :=
  ⟨rfl, rfl, by decide, rfl, by decide, by decide, by decide, by decide,
   decode_three_stages wM wMid wS rfl rfl (by decide) wP 'A' wPrest rfl
     (by decide) (by decide) (by decide) (by decide)⟩


/-- C5 (refuting the exactly-one-telemetry-record claim): the code violates
it in both directions.  With the retry loop succeeding and the subsequent
(duplicated) native-tools call and its legacy fallback both failing with
503, `generate_response` raises the 502 error having emitted ZERO telemetry
records; and when the direct decode fails but the structured tool-call
fallback succeeds, it emits TWO records (one error, one ok) for a single
successful call. -/
theorem telemetry_not_exactly_once :
    (generate_response 2 250 [.success okBody, .httpStatus 503, .httpStatus 503]).events = [] ∧
    (generate_response 2 250 [.success okBody, .httpStatus 503, .httpStatus 503]).outcome =
      .raised ⟨502, "llm_request_failed"⟩ ∧
    (generate_response 2 250 [.success okBody, .success choiceBody]).events =
      [⟨"error", some "decode_error"⟩, ⟨"ok", none⟩] ∧
    (generate_response 2 250 [.success okBody, .success choiceBody]).outcome =
      .ok (.obj [("response", .str ""),
                 ("action", .obj [("tool", .str "tasks.create"), ("payload", .obj [])])]) :=
  ⟨rfl, rfl, rfl, rfl⟩

end Nickel
